import Mathlib

/-!
Verification of the mobile app launch/attach orchestrator of this repository
(vscode-cordova): a shallow embedding of the dev-server readiness detector
(`IonicDevServer.startIonicDevServer`), the target manager
(`MobileTargetManager`), the Android attach-channel resolver
(`AndroidCordovaPlatform.prepareForAttach`) and the target persistence logic
(`CordovaDebugSession.resolveAndSaveMobileTarget`, `resolveAndroidTarget`),
together with theorems about their behaviour.

JavaScript strings are modelled as Lean `String` (lists of characters), the
regular expressions of the source are modelled by dedicated scanning functions
that implement exactly the matching semantics the source relies on
(leftmost match, greedy repetition, case-insensitive flags, `.` not matching
line terminators), promises are modelled by explicit state passing, and the
promise `_resolve`/`reject` callbacks are modelled as an ordered event list
(the first event of the list corresponds to the actual settlement of the
promise).
-/

/-! ## Character classes used by the JavaScript regular expressions -/

/-- Line terminators for the purposes of the JS `.` metacharacter and of the
multiline `$` anchor: `\n`, `\r`, U+2028, U+2029. -/
def isLineTerm (c : Char) : Bool :=
  c == '\n' || c == '\r' || c == Char.ofNat 0x2028 || c == Char.ofNat 0x2029

/-- The JS `\s` character class (the whitespace characters relevant to this
code base; exotic Unicode space separators beyond NBSP/BOM are omitted). -/
def isJsWS (c : Char) : Bool :=
  c == ' ' || c == '\t' || c == '\n' || c == '\r' || c == Char.ofNat 0x0b ||
  c == Char.ofNat 0x0c || c == Char.ofNat 0xa0 || c == Char.ofNat 0xfeff ||
  c == Char.ofNat 0x2028 || c == Char.ofNat 0x2029

/-- The JS `\w` word-character class `[A-Za-z0-9_]` (`\W` is its negation). -/
def isWordChar (c : Char) : Bool :=
  c.isAlphanum || c == '_'

/-- Case-insensitive character comparison (the `i` regex flag). -/
def ciCharEq (a b : Char) : Bool :=
  a.toLower == b.toLower

/-! ## String helpers mirroring the JavaScript string operations -/

/-- Case-sensitive test that `pat` is a literal prefix of `s`. -/
def startsWithData : List Char → List Char → Bool
  | [], _ => true
  | _ :: _, [] => false
  | p :: ps, c :: cs => p == c && startsWithData ps cs

/-- Case-sensitive substring search over character lists. -/
def includesData (pat : List Char) : List Char → Bool
  | [] => pat.isEmpty
  | c :: rest => startsWithData pat (c :: rest) || includesData pat rest

/-- JS `String.prototype.includes` (case sensitive substring test), also the
model of a flagless `RegExp.prototype.test` on a regex that is a literal. -/
def includesB (s pattern : String) : Bool :=
  includesData pattern.data s.data

/-- If `pat` matches the beginning of `s` case-insensitively, return the rest
of `s`; used to implement case-insensitive literal regex fragments. -/
def ciStrip : List Char → List Char → Option (List Char)
  | [], s => some s
  | _ :: _, [] => none
  | p :: ps, c :: cs => if ciCharEq p c then ciStrip ps cs else none

/-- Case-insensitive substring test (a literal under the `i` regex flag). -/
def ciIncludesData (pat : List Char) : List Char → Bool
  | [] => pat.isEmpty
  | c :: rest => (ciStrip pat (c :: rest)).isSome || ciIncludesData pat rest

/-- Splitting on a single character, with JS `String.prototype.split`
semantics (empty fragments at the ends are kept). -/
def splitCharGo (sep : Char) : List Char → List Char → List (List Char)
  | [], acc => [acc.reverse]
  | c :: rest, acc =>
    if c == sep then acc.reverse :: splitCharGo sep rest []
    else splitCharGo sep rest (c :: acc)

/-- JS `s.split("\n")`. -/
def jsSplitNl (s : String) : List String :=
  (splitCharGo '\n' s.data []).map String.mk

/-- One-pass splitter on runs of whitespace, mirroring JS
`s.split(/[\s\r]+/)` (and `s.split(/\s+/)`): `inGap` is true while inside a
whitespace run.  Leading or trailing whitespace produces empty fragments,
exactly as in JS. -/
def splitWSGo (s : List Char) (acc : List Char) (inGap : Bool) : List (List Char) :=
  match s with
  | [] => if inGap then [[]] else [acc.reverse]
  | c :: rest =>
    if inGap then
      if isJsWS c then splitWSGo rest [] true
      else splitWSGo rest [c] false
    else
      if isJsWS c then acc.reverse :: splitWSGo rest [] true
      else splitWSGo rest (c :: acc) false

/-- JS `s.split(/[\s\r]+/)`. -/
def jsSplitWS (s : String) : List String :=
  (splitWSGo s.data [] false).map String.mk

/-- JS `Array.prototype.indexOf` on an array of strings: `-1` when absent. -/
def jsIndexOf (l : List String) (x : String) : Int :=
  match l.findIdx? (· == x) with
  | some n => (n : Int)
  | none => -1

/-- JS array indexing `a[i]` with an `Int` index: `undefined` (modelled as
`none`) when out of range or negative. -/
def jsGetStr (l : List String) (i : Int) : Option String :=
  if i < 0 then none else l.get? i.toNat

/-- JS `Array.prototype.join(sep)`. -/
def joinSep (sep : String) : List String → String
  | [] => ""
  | [x] => x
  | x :: xs => x ++ sep ++ joinSep sep xs

/-- JS `a || b` for two possibly-undefined strings (`undefined` and `""` are
falsy). -/
def jsOr (a b : Option String) : Option String :=
  match a with
  | some s => if s == "" then b else some s
  | none => b

/-- The JS test `/^[0-9]+$/.test s`. -/
def isNumericStr (s : String) : Bool :=
  !s.data.isEmpty && s.data.all Char.isDigit

/-- JS `String.prototype.toLowerCase` (ASCII case folding suffices here). -/
def jsToLower (s : String) : String :=
  String.mk (s.data.map Char.toLower)

/-- JS `String.prototype.trim`. -/
def jsTrim (s : String) : String :=
  String.mk (((s.data.dropWhile isJsWS).reverse.dropWhile isJsWS).reverse)

/-- JS `String.prototype.split(sep)` for a non-empty separator string; the
fuel argument is the number of characters left (every separator hit consumes
at least one character). -/
def jsSplitOnGo (sep : List Char) : Nat → List Char → List Char → List (List Char)
  | 0, s, acc => [acc.reverse ++ s]
  | _ + 1, [], acc => [acc.reverse]
  | fuel + 1, c :: rest, acc =>
    if !sep.isEmpty && startsWithData sep (c :: rest) then
      acc.reverse :: jsSplitOnGo sep fuel ((c :: rest).drop sep.length) []
    else jsSplitOnGo sep fuel rest (c :: acc)

/-- JS `s.split(sep)` for a string separator. -/
def jsSplitOn (s sep : String) : List String :=
  (jsSplitOnGo sep.data s.data.length s.data []).map String.mk

/-! ## Models of the regular expressions of `IonicDevServer.startIonicDevServer`

Each JS regex used on the server output is modelled by a scanner with the
exact semantics the `exec`/`test` call relies on: positions are tried left to
right, alternatives in order, `.*` is greedy and does not cross line
terminators, and the `i` flag makes literals case-insensitive. -/

/-- The `(dev server running|Running dev server|Local):` part of
`SERVER_URL_RE`, tried at one position: on success, the text after the colon.
The three alternatives start with distinct letters, so the JS alternation
order is immaterial at a fixed position. -/
def serverUrlHead (s : List Char) : Option (List Char) :=
  match ciStrip "dev server running:".data s with
  | some r => some r
  | none =>
    match ciStrip "running dev server:".data s with
    | some r => some r
    | none => ciStrip "local:".data s

/-- The capture group `(http:\/\/.[^\s]*)` tried at one position: the actual
matched text (case preserved). -/
def urlHere (s : List Char) : Option (List Char) :=
  match ciStrip "http://".data s with
  | some (d :: r2) =>
    if isLineTerm d then none
    else some (s.take 7 ++ d :: r2.takeWhile (fun c => !isJsWS c))
  | _ => none

/-- The last position of a line at which `(http:\/\/.[^\s]*)` matches: the
greedy `.*` before the group backtracks from the right, so the rightmost
successful start wins. -/
def lastUrl : List Char → Option (List Char)
  | [] => none
  | c :: rest =>
    match lastUrl rest with
    | some u => some u
    | none => urlHere (c :: rest)

/-- `SERVER_URL_RE` tried at one position: the head alternation plus colon,
then `.*(http:\/\/.[^\s]*)` inside the rest of the same line (`.` and
`[^\s]` never cross a line terminator). Returns capture group 2. -/
def serverUrlAt (s : List Char) : Option (List Char) :=
  match serverUrlHead s with
  | some r => lastUrl (r.takeWhile (fun c => !isLineTerm c))
  | none => none

/-- Leftmost-position scan for `SERVER_URL_RE`. -/
def scanServerUrl : List Char → Option (List Char)
  | [] => none
  | c :: rest =>
    match serverUrlAt (c :: rest) with
    | some u => some u
    | none => scanServerUrl rest

/-- `SERVER_URL_RE.exec(serverOut)`, returning capture group 2 (the URL);
`none` models a `null` match result. -/
def serverUrlExec (s : String) : Option String :=
  (scanServerUrl s.data).map String.mk

/-- The regex `/External:\s(.*)$/im` tried at one position: `External:` (case
insensitive), one whitespace character, then the capture group running to the
end of the line (the multiline `$`). -/
def externalAt (s : List Char) : Option (List Char) :=
  match ciStrip "external:".data s with
  | some (c :: r) =>
    if isJsWS c then some (r.takeWhile (fun x => !isLineTerm x)) else none
  | _ => none

/-- Leftmost-position scan for `/External:\s(.*)$/im`, capture group 1. -/
def scanExternal : List Char → Option (List Char)
  | [] => none
  | c :: rest =>
    match externalAt (c :: rest) with
    | some g => some g
    | none => scanExternal rest

/-- The regex `/error:.*/i` tried at one position: the whole match (`match[0]`,
case preserved), running to the end of the line. -/
def errorAt (s : List Char) : Option (List Char) :=
  match ciStrip "error:".data s with
  | some r => some (s.take 6 ++ r.takeWhile (fun c => !isLineTerm c))
  | none => none

/-- `errorRegex.exec(channel)` for `errorRegex = /error:.*/i`: the leftmost
match. -/
def scanError : List Char → Option (List Char)
  | [] => none
  | c :: rest =>
    match errorAt (c :: rest) with
    | some m => some m
    | none => scanError rest

/-- The second alternative of `iosDeviceAppReadyRegex`,
`\(lldb\)\W+run\r?\nsuccess`, tried at one position.  The greedy `\W+` must
end exactly at the first word character (backtracking cannot help, because
`run` starts with a word character). -/
def lldbRunSuccessAt (s : List Char) : Bool :=
  match ciStrip "(lldb)".data s with
  | none => false
  | some r =>
    let gap := r.takeWhile (fun c => !isWordChar c)
    let r2 := r.dropWhile (fun c => !isWordChar c)
    !gap.isEmpty &&
      match ciStrip "run".data r2 with
      | none => false
      | some r3 =>
        let r4 := match r3 with
          | '\r' :: t => t
          | t => t
        match r4 with
        | '\n' :: t5 => (ciStrip "success".data t5).isSome
        | _ => false

/-- Scan for `\(lldb\)\W+run\r?\nsuccess` anywhere in the text. -/
def lldbRunSuccessTest : List Char → Bool
  | [] => false
  | c :: rest => lldbRunSuccessAt (c :: rest) || lldbRunSuccessTest rest

/-- The three app-ready regexes returned by `getRegexToResolveAppDefer`. -/
inductive AppReadyRegex where
  | iosDeviceRegex
  | iosSimulatorRegex
  | genericRegex
deriving DecidableEq, Repr

/-- `getRegexToResolveAppDefer(cliArgs)`: iOS device builds wait for
`created bundle at path|\(lldb\)\W+run\r?\nsuccess`, iOS simulator builds for
`build succeeded`, everything else for `launch success|run successful`. -/
def getRegexToResolveAppDefer (cliArgs : List String) : AppReadyRegex :=
  let isIosDevice := cliArgs.contains "ios" && cliArgs.contains "--device"
  let isIosSimulator := cliArgs.contains "ios" && cliArgs.contains "emulate"
  if isIosDevice then .iosDeviceRegex
  else if isIosSimulator then .iosSimulatorRegex
  else .genericRegex

/-- `regex.test(serverOut)` for the three app-ready regexes (all carry the
`i` flag; the literal alternatives are case-insensitive substring tests). -/
def appReadyRegexTest (r : AppReadyRegex) (s : List Char) : Bool :=
  match r with
  | .iosDeviceRegex =>
    ciIncludesData "created bundle at path".data s || lldbRunSuccessTest s
  | .iosSimulatorRegex => ciIncludesData "build succeeded".data s
  | .genericRegex =>
    ciIncludesData "launch success".data s ||
    ciIncludesData "run successful".data s

/-- The test `getRegexToResolveAppDefer(cliArgs).test(serverOut)`. -/
def appDeferTest (cliArgs : List String) (serverOut : String) : Bool :=
  appReadyRegexTest (getRegexToResolveAppDefer cliArgs) serverOut.data

/-- The regex `/(\d+\) .*)/gm` tried at one position: a maximal digit run,
then `") "`, then the rest of the line.  Returns the whole match (which the
`g` loop then skips over). -/
def numberedAt (s : List Char) : Option (List Char) :=
  let ds := s.takeWhile Char.isDigit
  if ds.isEmpty then none
  else
    match s.dropWhile Char.isDigit with
    | ')' :: ' ' :: r => some (ds ++ ')' :: ' ' :: r.takeWhile (fun c => !isLineTerm c))
    | _ => none

/-- The `while (match) { ...; match = addressRegex.exec(serverOut) }` loop for
`addressRegex = /(\d+\) .*)/gm`: successive non-overlapping leftmost matches
(`lastIndex` advances past each match).  The fuel argument is the number of
characters left, which bounds the number of steps because every match
consumes at least one character. -/
def collectAddrsGo : Nat → List Char → List (List Char)
  | 0, _ => []
  | _ + 1, [] => []
  | fuel + 1, c :: rest =>
    match numberedAt (c :: rest) with
    | some m => m :: collectAddrsGo fuel ((c :: rest).drop (m.length.max 1))
    | none => collectAddrsGo fuel rest

/-- All matches of `/(\d+\) .*)/gm` in `serverOut`, in order. -/
def collectAddrs (s : String) : List String :=
  (collectAddrsGo s.data.length s.data).map String.mk

/-! ## The dev-server readiness detector (`IonicDevServer.startIonicDevServer`)

The promise executor of `serverStarting` is modelled as a state machine over
`IonicState`.  Calls of the promise callbacks `_resolve`/`reject` are recorded
in order in `events` (a promise settles on the first such call; later calls
are no-ops on the promise value, but the source still performs them).  The
single mutable `rejectTimeout` handle is modelled by `timer`
(`none` = cleared); `serverReadyClears` counts how often the server-ready
timeout was cleared by the `ServerReady` transition (instrumentation of the
`clearTimeout` call in `resolveIfPossible`; it is not a source variable). -/

/-- `os.EOL` (Linux/macOS). -/
def osEOL : String := "\n"

/-- The enum `IonicDevServerStatus` local to `startIonicDevServer`. -/
inductive IonicDevServerStatus where
  | serverReadyStatus
  | appReadyStatus
deriving DecidableEq, Repr

/-- The phase the pending `rejectTimeout` belongs to, with its configured
deadline in milliseconds. -/
inductive TimerPhase where
  | serverPhase (ms : Nat)
  | appPhase (ms : Nat)
deriving DecidableEq, Repr

/-- A call of one of the promise callbacks of `serverStarting`. -/
inductive SEvent where
  | resolveEv (urls : List String)
  | rejectEv (message : String)
deriving DecidableEq, Repr

/-- Whether an event is a `reject` call. -/
def SEvent.isRejectEv : SEvent → Bool
  | .rejectEv _ => true
  | .resolveEv _ => false

/-- The configuration captured by the closures of `startIonicDevServer`. -/
structure IonicConfig where
  cliArgs : List String
  isIonic4 : Bool
  serverReadyTimeout : Nat
  appReadyTimeout : Nat
deriving DecidableEq, Repr

/-- `isServe = cliArgs[0] === "serve"`. -/
def IonicConfig.isServe (cfg : IonicConfig) : Bool :=
  cfg.cliArgs.head? == some "serve"

/-- The mutable state of the `serverStarting` promise executor. -/
structure IonicState where
  serverOut : String
  serverErr : String
  serverReady : Bool
  appReady : Bool
  timer : Option TimerPhase
  serverReadyClears : Nat
  events : List SEvent
deriving DecidableEq, Repr

/-- The state right after the executor armed the initial server-ready
timeout. -/
def initIonicState (cfg : IonicConfig) : IonicState :=
  { serverOut := ""
    serverErr := ""
    serverReady := false
    appReady := false
    timer := some (.serverPhase cfg.serverReadyTimeout)
    serverReadyClears := 0
    events := [] }

/-- Append an event (a call of `_resolve` or `reject`). -/
def addEvent (st : IonicState) (e : SEvent) : IonicState :=
  { st with events := st.events ++ [e] }

/-- `getServerErrorMessage(channel)`: under Ionic 4 the benign
`utils-network error while checking` probe message suppresses the whole
check; otherwise the first `/error:.*/i` match produces the localized
message. -/
def getServerErrorMessage (isIonic4 : Bool) (channel : String) : Option String :=
  if isIonic4 && includesB channel "utils-network error while checking" then none
  else
    match scanError channel.data with
    | some m =>
      some ("Error in the Ionic live reload server: " ++ osEOL ++ String.mk m)
    | none => none

/-- `resolveIfPossible(ready, serverUrls)`: entering `ServerReady` clears the
server-ready timeout (exactly this call site increments
`serverReadyClears`) and arms the app-ready timeout; entering `AppReady` is
allowed only when `serverReady` is already set, clears the pending timeout
and calls `_resolve(serverUrls)`. -/
def resolveIfPossible (cfg : IonicConfig) (ready : IonicDevServerStatus)
    (serverUrls : Option (List String)) (st : IonicState) : IonicState :=
  if ready == .serverReadyStatus && !st.serverReady then
    { st with
      timer := some (.appPhase cfg.appReadyTimeout)
      serverReady := true
      serverReadyClears := st.serverReadyClears + 1 }
  else if ready == .appReadyStatus && st.serverReady then
    { (addEvent st (.resolveEv (serverUrls.getD []))) with
      timer := none
      appReady := true }
  else st

/-- The URL list built in the app-ready branch of `serverOutputHandler`:
`[localServerMatchResult[2]]` plus the comma-separated trimmed addresses of
the `External:` line, if present.  (When the regex result is `null` the JS
code would throw; this is unreachable because the branch runs only with
`serverReady` set, which requires a match — the model totalizes it with
`""`.) -/
def capturedUrls (out : String) : List String :=
  let primary := String.mk ((scanServerUrl out.data).getD [])
  match scanExternal out.data with
  | some g => primary :: (jsSplitOn (String.mk g) ", ").map jsTrim
  | none => [primary]

/-- The localized multiple-network-interfaces error message, including the
numbered address list found in the output (if any). -/
def multiNetworkErrorMessage (out : String) : String :=
  let base := "Your machine has multiple network addresses. Please specify which one your device or emulator will use to communicate with the dev server by adding a \"devServerAddress\": \"ADDRESS\" property to .vscode/launch.json.\n    To get the list of addresses run \"ionic cordova run PLATFORM --livereload\" (where PLATFORM is platform name to run) and wait until prompt with this list is appeared."
  let addresses := collectAddrs out
  if addresses.length > 0 then
    base ++ joinSep (osEOL ++ " ") (" Available addresses:" :: addresses)
  else base

/-- First step of `serverOutputHandler`: the server-ready check on the
accumulated output. -/
def stepServerReady (cfg : IonicConfig) (out : String) (st : IonicState) : IonicState :=
  if !st.serverReady && (serverUrlExec out).isSome then
    resolveIfPossible cfg .serverReadyStatus none st
  else st

/-- Second step of `serverOutputHandler`: the app-ready check (for `serve`
no build/deploy phase exists, so the app is ready with the server). -/
def stepAppReady (cfg : IonicConfig) (out : String) (st : IonicState) : IonicState :=
  if st.serverReady && !st.appReady && (cfg.isServe || appDeferTest cfg.cliArgs out) then
    resolveIfPossible cfg .appReadyStatus (some (capturedUrls out)) st
  else st

/-- Third step of `serverOutputHandler`: the multiple-network-interfaces
check, a fatal case rejecting with the address list. -/
def stepMultiNetwork (out : String) (st : IonicState) : IonicState :=
  if includesB out "Multiple network interfaces detected" then
    addEvent st (.rejectEv (multiNetworkErrorMessage out))
  else st

/-- Fourth step of `serverOutputHandler`: the fatal-pattern check on the
accumulated output. -/
def stepServerError (cfg : IonicConfig) (out : String) (st : IonicState) : IonicState :=
  match getServerErrorMessage cfg.isIonic4 out with
  | some m => addEvent st (.rejectEv m)
  | none => st

/-- `serverOutputHandler(data)`: append the chunk to `serverOut` and run the
four checks, in source order, on the accumulated output. -/
def serverOutputHandler (cfg : IonicConfig) (st : IonicState) (data : String) : IonicState :=
  let out := st.serverOut ++ data
  let st1 := { st with serverOut := out }
  stepServerError cfg out (stepMultiNetwork out (stepAppReady cfg out (stepServerReady cfg out st1)))

/-- `serverErrorOutputHandler(data)`: append the chunk to `serverErr` and
reject on a fatal pattern in the accumulated error output. -/
def serverErrorOutputHandler (cfg : IonicConfig) (st : IonicState) (data : String) : IonicState :=
  let err := st.serverErr ++ data
  let st1 := { st with serverErr := err }
  match getServerErrorMessage cfg.isIonic4 err with
  | some m => addEvent st1 (.rejectEv m)
  | none => st1

/-- Feeding a sequence of stdout chunks to the detector. -/
def runDetector (cfg : IonicConfig) (chunks : List String) : IonicState :=
  chunks.foldl (serverOutputHandler cfg) (initIonicState cfg)

/-- The localized message the `rejectTimeout` callback rejects with when the
pending timeout fires, naming the phase and its configured deadline. -/
def timeoutMessage : TimerPhase → String
  | .serverPhase ms => "Starting the Ionic dev server timed out (" ++ toString ms ++ " ms)"
  | .appPhase ms => "Building and deploying the app timed out (" ++ toString ms ++ " ms)"

/-- The timeout discipline tied to the readiness flags: before `ServerReady`
the server-ready timeout is pending and was never cleared; between
`ServerReady` and `AppReady` the app-ready timeout is pending and the
server-ready timeout was cleared exactly once; after `AppReady` no timeout
is pending (and `AppReady` implies `ServerReady`). -/
def TimerInvariant (cfg : IonicConfig) (st : IonicState) : Prop :=
  (st.serverReady = false →
    st.timer = some (.serverPhase cfg.serverReadyTimeout) ∧
    st.appReady = false ∧ st.serverReadyClears = 0) ∧
  (st.serverReady = true → st.appReady = false →
    st.timer = some (.appPhase cfg.appReadyTimeout) ∧ st.serverReadyClears = 1) ∧
  (st.appReady = true →
    st.timer = none ∧ st.serverReady = true ∧ st.serverReadyClears = 1)

/-! ## `MobileTargetManager` (target inventory and selection) -/

/-- The `IMobileTarget` interface: all of `name` and `id` are optional in the
TypeScript interface. -/
structure IMobileTarget where
  name : Option String
  id : Option String
  isOnline : Bool
  isVirtualTarget : Bool
deriving DecidableEq, Repr

/-- `MobileTargetManager.getTargetList(filter?)` after the targets snapshot
has been collected (`collectTargets` fills `this.targets`; the model takes
the collected snapshot as input). -/
def getTargetList (targets : List IMobileTarget)
    (filter : Option (IMobileTarget → Bool)) : List IMobileTarget :=
  match filter with
  | some f => targets.filter f
  | none => targets

/-- The outcome of `MobileTargetManager.selectTarget`: the returned target,
and the label list handed to `window.showQuickPick` when the interactive
chooser was invoked (`none` when it was not). -/
structure SelectOutcome where
  result : Option IMobileTarget
  prompted : Option (List (Option String))
deriving DecidableEq, Repr

/-- The label of a target in the quick pick: `target?.name || target?.id`. -/
def targetLabel (t : IMobileTarget) : Option String :=
  jsOr t.name t.id

/-- `MobileTargetManager.selectTarget(filter?)`.  `chooser` models
`window.showQuickPick` (returning the selected label or `undefined`); it is
consulted only when more than one candidate remains. -/
def selectTarget (targets : List IMobileTarget)
    (filter : Option (IMobileTarget → Bool))
    (chooser : List (Option String) → Option String) : SelectOutcome :=
  let targetList := getTargetList targets filter
  let res0 : Option String :=
    jsOr (targetList.head?.bind (·.name)) (targetList.head?.bind (·.id))
  let result : Option String :=
    if targetList.length > 1 then chooser (targetList.map targetLabel) else res0
  { result := targetList.find? (fun t => t.name == result || t.id == result)
    prompted := if targetList.length > 1 then some (targetList.map targetLabel) else none }

/-- `MobileTargetManager.isVirtualTarget(target)`: `false` for anything
containing `device`, else `true` for anything containing `emulator`, else a
thrown error (modelled by `Except.error` with the localized message). -/
def isVirtualTarget (target : String) : Except String Bool :=
  if includesB target "device" then .ok false
  else if includesB target "emulator" then .ok true
  else .error ("Could not recognize type of the target " ++ target)

/-! ## Android attach channel (`AndroidCordovaPlatform.prepareForAttach`) -/

/-- A filesystem error as surfaced by `fs.promises.readFile`: only the
`ENOENT` code is inspected by the source. -/
inductive FsError where
  | enoent
  | otherFs (message : String)
deriving DecidableEq, Repr

/-- The manifest read of `packagePromise`: read the first manifest location;
treat `ENOENT` as a probe and fall back to the second location; every other
error propagates.  `firstRead`/`secondRead` are the results of the two
`fs.promises.readFile` calls. -/
def manifestRead (firstRead secondRead : Except FsError String) : Except FsError String :=
  match firstRead with
  | .ok contents => .ok contents
  | .error .enoent => secondRead
  | .error e => .error e

/-- The pid-discovery stage of `findAbstractNameFunction`: the promise chain
`runAdbCommand(pidof).then(numeric check, throwing the pid-not-found marker)
 .catch(err => if (err.message !== marker) return; else ps fallback)`.
`pidofResult` is the settled result of the `pidof` adb command, `psFallback`
the settled result of the `ps`-parsing fallback chain.  The returned value
is the pid handed to the socket scan (`none` models `undefined`). -/
def pidStage (pidofNotFoundMarker : String) (pidofResult : Except String String)
    (psFallback : Except String (Option String)) : Except String (Option String) :=
  match pidofResult with
  | .ok pid =>
    if pid != "" && isNumericStr (jsTrim pid) then .ok (some (jsTrim pid))
    else psFallback
  | .error e => if e == pidofNotFoundMarker then psFallback else .ok none

/-- One line of the `for (const line of lines)` loop over `/proc/net/unix`:
skip short lines, lines without the accepting/unconnected markers
(`Flags 00010000`, `St 01`), paths not starting with `@` or without
`_devtools_remote`; return the socket name (the path without the leading
`@`) for the webview pattern of the resolved pid or the crosswalk pattern of
the package id. -/
def socketLineMatch (pid appPackageName : String)
    (flagsIdx stIdx pathIdx : Int) (line : String) : Option String :=
  let fields := jsSplitWS line
  if fields.length < 8 then none
  else if jsGetStr fields flagsIdx != some "00010000" || jsGetStr fields stIdx != some "01" then
    none
  else
    match jsGetStr fields pathIdx with
    | none => none
    | some pathField =>
      if pathField.data.length < 1 || pathField.data.head? != some '@' then none
      else if !includesB pathField "_devtools_remote" then none
      else if pathField == "@webview_devtools_remote_" ++ pid then
        some (String.mk (pathField.data.drop 1))
      else if pathField == "@" ++ appPackageName ++ "_devtools_remote" then
        some (String.mk (pathField.data.drop 1))
      else none

/-- The socket scan of `findAbstractNameFunction`: split the
`cat /proc/net/unix` output into lines, derive the column indices from the
header line, and return the first matching socket name. -/
def findSocketName (pid appPackageName getSocketsResult : String) : Option String :=
  let lines := jsSplitNl getSocketsResult
  let keys := jsSplitWS (lines.headD "")
  let flagsIdx := jsIndexOf keys "Flags"
  let stIdx := jsIndexOf keys "St"
  let pathIdx := jsIndexOf keys "Path"
  lines.tail.findSome? (socketLineMatch pid appPackageName flagsIdx stIdx pathIdx)

/-! ## The retry loop around pid and socket discovery -/

/-- The outcome of a `retryAsync` run. -/
inductive RetryOutcome (α : Type) where
  | success (value : α)
  | canceled
  | exhausted (message : String)
deriving DecidableEq, Repr

/-- Instrumented trace of a `retryAsync` run: how many attempts ran, the
delays slept between attempts, and the final outcome. -/
structure RetryTrace (α : Type) where
  attempts : Nat
  delaysMs : List Nat
  outcome : RetryOutcome α
deriving DecidableEq, Repr

/-- Modelled from the spec: the shared `retryAsync` helper lives outside
`src/` (only its call site in `prepareForAttach` is part of the sources).
Per the spec (§4.4 step 6 and §8): run the operation up to the fixed attempt
count, sleeping the fixed delay between attempts, honoring the cancellation
token before each attempt, and surface the provided specific failure message
(not a raw retry-count error) on exhaustion.  `iteration` counts attempts
starting from the given start index up to `maxRetries`; `fuel` bounds the
recursion. -/
def retryAsyncGo (op : Nat → α) (condition : α → Bool) (maxRetries delay : Nat)
    (failure : String) (canceledAt : Nat → Bool) :
    Nat → Nat → Nat → List Nat → RetryTrace α
  | _, 0, attempts, delays => ⟨attempts, delays, .exhausted failure⟩
  | iteration, fuel + 1, attempts, delays =>
    if canceledAt iteration then ⟨attempts, delays, .canceled⟩
    else
      let r := op iteration
      if condition r then ⟨attempts + 1, delays, .success r⟩
      else if iteration < maxRetries then
        retryAsyncGo op condition maxRetries delay failure canceledAt
          (iteration + 1) fuel (attempts + 1) (delays ++ [delay])
      else ⟨attempts + 1, delays, .exhausted failure⟩

/-- Modelled from the spec: `retryAsync(func, condition, maxRetries,
iteration, delay, failure, cancellationToken)`. -/
def retryAsync (op : Nat → α) (condition : α → Bool)
    (maxRetries iteration delay : Nat) (failure : String)
    (canceledAt : Nat → Bool) : RetryTrace α :=
  retryAsyncGo op condition maxRetries delay failure canceledAt iteration
    (maxRetries + 1 - iteration) 0 []

/-- The `retryAsync` call site in `prepareForAttach`: retry
`findAbstractNameFunction` (here `find`, returning the socket name or
`undefined`) with `(match) => !!match`, 5 attempts starting at iteration 1,
5000 ms delay, and the localized attach-channel failure message. -/
def prepareForAttachRetry (find : Nat → Option String)
    (canceledAt : Nat → Bool) : RetryTrace (Option String) :=
  retryAsync find (fun m => !(m.getD "" == "")) 5 1 5000
    "Unable to find 'localabstract' name of Cordova app" canceledAt

/-! ## Persisting the resolved target (`resolveAndSaveMobileTarget` and
`resolveAndroidTarget.saveResult`) -/

/-- A resolved mobile target as used by the persistence logic (the
`MobileTarget` class has definite `id` and `name`). -/
structure MTarget where
  id : String
  name : String
  isOnline : Bool
  isVirtualTarget : Bool
deriving DecidableEq, Repr

/-- Modelled from the spec: `AbstractMobilePlatform.getTargetsCountByFilter`
(the class is not under `src/`); it counts the targets of the collected
inventory satisfying the filter ("more than one candidate of the same
virtual/physical class existed"). -/
def getTargetsCountByFilter (targets : List MTarget) (f : MTarget → Bool) : Nat :=
  (targets.filter f).length

/-- `CordovaDebugSession.resolveAndSaveMobileTarget`: the value written into
the durable launch configuration (`none` when `updateLaunchScenario` is not
called).  `hasTargetInRunArgs` models `mobilePlatform.getTargetFromRunArgs()`
truthiness, `resultTarget` the result of `mobilePlatform.resolveMobileTarget`,
`inventory` the collected targets counted by `getTargetsCountByFilter`. -/
def resolveAndSaveMobileTarget (argsTarget : Option String)
    (platformIsAndroid : Bool) (hasTargetInRunArgs : Bool)
    (resultTarget : Option MTarget) (inventory : List MTarget) : Option String :=
  match argsTarget with
  | none => none
  | some tgt =>
    if tgt == "" then none
    else if hasTargetInRunArgs then none
    else
      let isAnyTarget := jsToLower tgt == "emulator" || jsToLower tgt == "device"
      match resultTarget with
      | none => none
      | some rt =>
        if isAnyTarget then
          if getTargetsCountByFilter inventory
              (fun t => t.isVirtualTarget == rt.isVirtualTarget) > 1 then
            some (if platformIsAndroid then rt.name else rt.id)
          else none
        else none

/-- `saveResult` inside `AndroidCordovaPlatform.resolveAndroidTarget`: the
value written into the launch configuration when it is invoked (which the
caller does only when a generic `emulator`/`device` target was requested and
a target was resolved).  In the attach scenario the write happens only with
more than one online target of the same class; in the launch scenario it is
unconditional. -/
def saveResultUpdates (isAttachScenario : Bool) (onlineTargets : List MTarget)
    (target : MTarget) : Option String :=
  if isAttachScenario then
    if (onlineTargets.filter
        (fun device => device.isVirtualTarget == target.isVirtualTarget)).length > 1 then
      some target.name
    else none
  else some target.name

/-- Whether a target matches a chosen quick-pick label via its name or id
(the predicate of the final `targetList.find` in `selectTarget`). -/
def matchesLabel (t : IMobileTarget) (l : String) : Bool :=
  t.name == some l || t.id == some l

/-! ## Lemmas about the string helpers -/

theorem string_data_append (a b : String) : (a ++ b).data = a.data ++ b.data := rfl

theorem joinSep_mem_infix (sep : String) (a : String) :
    ∀ l : List String, a ∈ l → a.data <:+: (joinSep sep l).data := by
  intro l
  induction l with
  | nil => intro h; cases h
  | cons x xs ih =>
    intro h
    rcases List.mem_cons.mp h with h | h
    · subst h
      cases xs with
      | nil => exact ⟨[], [], by simp [joinSep]⟩
      | cons y ys =>
        refine ⟨[], (sep ++ joinSep sep (y :: ys)).data, ?_⟩
        simp [joinSep, string_data_append]
    · cases xs with
      | nil => cases h
      | cons y ys =>
        have hi := ih h
        have : (joinSep sep (x :: y :: ys)).data
            = (x ++ sep).data ++ (joinSep sep (y :: ys)).data := by
          simp [joinSep, string_data_append]
        rw [this]
        exact hi.trans ⟨(x ++ sep).data, [], by simp⟩

/-! ## C10: `isVirtualTarget` classification -/

/-- C10: `MobileTargetManager.isVirtualTarget` is not a total boolean
classifier: every target string containing `device` resolves `false` (even
when it also contains `emulator`); a string containing `emulator` but not
`device` resolves `true`; and a string containing neither rejects with the
`Could not recognize type of the target` error. -/
theorem c10_is_virtual_target (target : String) :
    (includesB target "device" = true → isVirtualTarget target = .ok false) ∧
    (includesB target "device" = false → includesB target "emulator" = true →
      isVirtualTarget target = .ok true) ∧
    (includesB target "device" = false → includesB target "emulator" = false →
      isVirtualTarget target =
        .error ("Could not recognize type of the target " ++ target)) := by
  refine ⟨fun h => ?_, fun h1 h2 => ?_, fun h1 h2 => ?_⟩
  · simp [isVirtualTarget, h]
  · simp [isVirtualTarget, h1, h2]
  · simp [isVirtualTarget, h1, h2]

/-- Witness for C10 at the three concrete inputs `"emulator_device"`,
`"emulator-5554"` and `"Pixel4"`. -/
theorem c10_witness :
    isVirtualTarget "emulator_device" = .ok false ∧
    isVirtualTarget "emulator-5554" = .ok true ∧
    isVirtualTarget "Pixel4" =
      .error ("Could not recognize type of the target " ++ "Pixel4") :=
  ⟨(c10_is_virtual_target "emulator_device").1 (by decide),
   (c10_is_virtual_target "emulator-5554").2.1 (by decide) (by decide),
   (c10_is_virtual_target "Pixel4").2.2 (by decide) (by decide)⟩

/-! ## C5: retry exhaustion of the socket discovery -/

/-- C5: when pid-plus-socket discovery yields no match on any attempt and the
session is never canceled, the `retryAsync` call of `prepareForAttach` makes
exactly 5 attempts with the fixed 5000 ms delay between them and surfaces
the specific localized attach-channel error (not a raw retry-count error);
the loop honors the cancellation token (a canceled token stops the loop with
a cancellation outcome before any further attempt). -/
theorem c5_retry_exhaustion (find : Nat → Option String) (canceledAt : Nat → Bool)
    (hfind : ∀ i, find i = none) (hcancel : ∀ i, canceledAt i = false) :
    (prepareForAttachRetry find canceledAt).attempts = 5 ∧
    (prepareForAttachRetry find canceledAt).delaysMs = [5000, 5000, 5000, 5000] ∧
    (prepareForAttachRetry find canceledAt).outcome =
      .exhausted "Unable to find 'localabstract' name of Cordova app" ∧
    (∀ find' : Nat → Option String, ∀ canceled' : Nat → Bool,
      canceled' 1 = true →
      (prepareForAttachRetry find' canceled').outcome = .canceled) := by
  refine ⟨?_, ?_, ?_, ?_⟩
  · simp [prepareForAttachRetry, retryAsync, retryAsyncGo, hfind, hcancel]
  · simp [prepareForAttachRetry, retryAsync, retryAsyncGo, hfind, hcancel]
  · simp [prepareForAttachRetry, retryAsync, retryAsyncGo, hfind, hcancel]
  · intro find' canceled' h
    simp [prepareForAttachRetry, retryAsync, retryAsyncGo, h]

/-- Witness for C5: the retry call with an operation that never finds the
socket and a token that is never canceled. -/
theorem c5_witness :
    (prepareForAttachRetry (fun _ => none) (fun _ => false)).attempts = 5 ∧
    (prepareForAttachRetry (fun _ => none) (fun _ => false)).delaysMs =
      [5000, 5000, 5000, 5000] ∧
    (prepareForAttachRetry (fun _ => none) (fun _ => false)).outcome =
      .exhausted "Unable to find 'localabstract' name of Cordova app" ∧
    (∀ find' : Nat → Option String, ∀ canceled' : Nat → Bool,
      canceled' 1 = true →
      (prepareForAttachRetry find' canceled').outcome = .canceled) :=
  c5_retry_exhaustion (fun _ => none) (fun _ => false)
    (fun _ => rfl) (fun _ => rfl)

/-! ## C6: error propagation in the attach helpers -/

/-- C6 counterexample: a pidof-query error that is not the pid-not-found
marker is not propagated — the `catch` handler returns `undefined`, so the
stage yields an undefined pid instead of the error. -/
theorem c6_counterexample :
    pidStage "PID not found" (.error "adb: device unauthorized")
      (.ok (some "100")) = .ok none ∧
    pidStage "PID not found" (.error "adb: device unauthorized")
      (.ok (some "100")) ≠ .error "adb: device unauthorized" := by
  have h : pidStage "PID not found" (.error "adb: device unauthorized")
      (.ok (some "100")) = .ok none := by
    simp [pidStage]
  refine ⟨h, ?_⟩
  rw [h]
  intro hc
  cases hc

/-- C6 (amended): the dual manifest-location fallback recovers exactly the
`ENOENT` probe and propagates every other manifest error; but in the direct
pidof query only the pid-not-found marker triggers the `ps` fallback — any
other error is silently converted to an undefined pid (the `catch` returns
`undefined`) rather than propagated, and the flow proceeds to the socket
scan and the retry machinery. -/
theorem c6_amended_error_propagation :
    (∀ m s, manifestRead (.error (.otherFs m)) s = .error (.otherFs m)) ∧
    (∀ s, manifestRead (.error .enoent) s = s) ∧
    (∀ c s, manifestRead (.ok c) s = .ok c) ∧
    (∀ marker e fb, e ≠ marker →
      pidStage marker (.error e) fb = .ok none) ∧
    (∀ marker fb, pidStage marker (.error marker) fb = fb) := by
  refine ⟨fun m s => rfl, fun s => rfl, fun c s => rfl, ?_, ?_⟩
  · intro marker e fb h
    simp [pidStage, h]
  · intro marker fb
    simp [pidStage]

/-- Witness for C6 at concrete inputs: a non-`ENOENT` manifest error
propagates, and a non-marker pidof error is swallowed. -/
theorem c6_witness :
    manifestRead (.error (.otherFs "EACCES")) (.ok "<manifest/>") =
      .error (.otherFs "EACCES") ∧
    pidStage "PID not found" (.error "adb: no devices") (.ok none) = .ok none :=
  ⟨c6_amended_error_propagation.1 "EACCES" (.ok "<manifest/>"),
   c6_amended_error_propagation.2.2.2.1 "PID not found" "adb: no devices"
     (.ok none) (by decide)⟩

/-! ## C3: persisting the resolved target -/

/-- C3 counterexample: in the launch scenario of
`AndroidCordovaPlatform.resolveAndroidTarget`, `saveResult` writes the
resolved target into the launch configuration unconditionally — here with
exactly one online candidate of the same virtual class. -/
theorem c3_counterexample :
    saveResultUpdates false [⟨"emulator-5554", "Pixel_4", true, true⟩]
      ⟨"emulator-5554", "Pixel_4", true, true⟩ = some "Pixel_4" ∧
    (([⟨"emulator-5554", "Pixel_4", true, true⟩] : List MTarget).filter
      (fun d => d.isVirtualTarget == true)).length = 1 := by
  exact ⟨rfl, rfl⟩

/-- C3 (amended): the debug-session level `resolveAndSaveMobileTarget` and
the attach scenario of `resolveAndroidTarget.saveResult` persist the
resolved identity only when more than one candidate of the same
virtual/physical class exists (in particular never for an explicit
unambiguous target request); the launch scenario of `saveResult`, however,
persists whenever a generic `emulator`/`device` target was requested and
resolved, even with a single candidate. -/
theorem c3_amended_persist_policy :
    (∀ argsTarget platformIsAndroid hasRunArgsTarget rt inventory,
      resolveAndSaveMobileTarget argsTarget platformIsAndroid hasRunArgsTarget
        (some rt) inventory ≠ none →
      getTargetsCountByFilter inventory
        (fun t => t.isVirtualTarget == rt.isVirtualTarget) > 1) ∧
    (∀ platformIsAndroid hasRunArgsTarget rt inventory,
      resolveAndSaveMobileTarget (some "explicit-target-id") platformIsAndroid
        hasRunArgsTarget rt inventory = none) ∧
    (∀ onlineTargets t, saveResultUpdates true onlineTargets t ≠ none →
      (onlineTargets.filter
        (fun d => d.isVirtualTarget == t.isVirtualTarget)).length > 1) ∧
    (∀ onlineTargets t, saveResultUpdates false onlineTargets t = some t.name) := by
  refine ⟨?_, ?_, ?_, fun _ _ => rfl⟩
  · intro argsTarget pia hra rt inventory h
    cases argsTarget with
    | none => simp [resolveAndSaveMobileTarget] at h
    | some tgt =>
      simp only [resolveAndSaveMobileTarget] at h
      by_cases h1 : tgt == ""
      · simp [h1] at h
      · by_cases h2 : hra
        · simp [h1, h2] at h
        · by_cases h3 : (jsToLower tgt == "emulator" || jsToLower tgt == "device")
          · by_cases h4 : getTargetsCountByFilter inventory
                (fun t => t.isVirtualTarget == rt.isVirtualTarget) > 1
            · exact h4
            · simp [h1, h2, h3, h4] at h
          · simp [h1, h2, h3] at h
  · intro pia hra rt inventory
    cases rt with
    | none => simp [resolveAndSaveMobileTarget]
    | some t =>
      have hlow : jsToLower "explicit-target-id" = "explicit-target-id" := by decide
      simp [resolveAndSaveMobileTarget, hlow]
  · intro onlineTargets t h
    by_cases h1 : (onlineTargets.filter
        (fun d => d.isVirtualTarget == t.isVirtualTarget)).length > 1
    · exact h1
    · simp [saveResultUpdates, h1] at h

/-- Witness for C3: the session-level persistence fires at a concrete
ambiguous inventory (two emulators), so the same-class candidate count
exceeds one; likewise for the attach scenario with two online emulators. -/
theorem c3_witness :
    getTargetsCountByFilter
      ([⟨"emulator-5554", "Pixel", true, true⟩,
        ⟨"emulator-5556", "Nexus", false, true⟩] : List MTarget)
      (fun t => t.isVirtualTarget == true) > 1 ∧
    (([⟨"emulator-5554", "Pixel", true, true⟩,
       ⟨"emulator-5556", "Nexus", false, true⟩] : List MTarget).filter
      (fun d => d.isVirtualTarget == true)).length > 1 :=
  ⟨c3_amended_persist_policy.1 (some "emulator") true false
      ⟨"emulator-5554", "Pixel", true, true⟩
      [⟨"emulator-5554", "Pixel", true, true⟩,
       ⟨"emulator-5556", "Nexus", false, true⟩]
      (by decide),
   c3_amended_persist_policy.2.2.1
      [⟨"emulator-5554", "Pixel", true, true⟩,
       ⟨"emulator-5556", "Nexus", false, true⟩]
      ⟨"emulator-5554", "Pixel", true, true⟩ (by decide)⟩

/-! ## C9: target selection -/

/-- Auxiliary: with a single candidate, the final `find` of `selectTarget`
recovers exactly that candidate from its own default label. -/
theorem find_single_candidate (t : IMobileTarget) :
    [t].find? (fun x => x.name == jsOr t.name t.id || x.id == jsOr t.name t.id)
      = some t := by
  cases hn : t.name with
  | none => simp [jsOr, List.find?, hn]
  | some n =>
    by_cases he : n == ""
    · simp [jsOr, List.find?, he]
    · simp [jsOr, List.find?, he, hn]

/-- C9: when the filtered candidate list has exactly one element, target
selection returns that element without invoking the interactive chooser;
with more than one element the chooser is invoked with exactly the
candidates' labels (name, or id when the name is absent) in list order, and
the returned target is the (unique) list element matching the chosen
label. -/
theorem c9_select_target (targets : List IMobileTarget)
    (filter : Option (IMobileTarget → Bool))
    (chooser : List (Option String) → Option String) :
    ((getTargetList targets filter).length = 1 →
      (selectTarget targets filter chooser).result
        = (getTargetList targets filter).head? ∧
      (selectTarget targets filter chooser).prompted = none) ∧
    ((getTargetList targets filter).length > 1 →
      (selectTarget targets filter chooser).prompted
        = some ((getTargetList targets filter).map targetLabel) ∧
      (∀ l t, chooser ((getTargetList targets filter).map targetLabel) = some l →
        t ∈ getTargetList targets filter → matchesLabel t l = true →
        (∀ t' ∈ getTargetList targets filter, matchesLabel t' l = true → t' = t) →
        (selectTarget targets filter chooser).result = some t)) := by
  constructor
  · intro h
    obtain ⟨t, htl⟩ := List.length_eq_one.mp h
    have hlen : ¬ (getTargetList targets filter).length > 1 := by
      rw [h]; decide
    constructor
    · simp only [selectTarget, if_neg hlen, htl]
      simpa using find_single_candidate t
    · simp only [selectTarget, if_neg hlen]
  · intro h
    constructor
    · simp only [selectTarget, if_pos h]
    · intro l t hch hmem hlab huniq
      simp only [selectTarget, if_pos h, hch]
      have hsome : ((getTargetList targets filter).find?
          (fun x => x.name == some l || x.id == some l)).isSome := by
        refine List.find?_isSome.mpr ⟨t, hmem, ?_⟩
        simpa [matchesLabel] using hlab
      obtain ⟨t', ht'⟩ := Option.isSome_iff_exists.mp hsome
      have hpt' := List.find?_some ht'
      have hmem' : t' ∈ getTargetList targets filter :=
        List.mem_of_find?_eq_some ht'
      rw [ht']
      exact congrArg some (huniq t' hmem' (by simpa [matchesLabel] using hpt'))

/-- Witness for C9, following the spec example: with targets `A` (offline),
`B` (online), `C` (online) and an online-and-id-B filter, the single
candidate `B` is returned without prompting; with the online filter the
chooser sees exactly `[B, C]` and its choice `C` is returned. -/
theorem c9_witness :
    ((selectTarget
        [⟨none, some "A", false, false⟩, ⟨none, some "B", true, false⟩,
         ⟨none, some "C", true, true⟩]
        (some (fun t => t.isOnline && t.id == some "B"))
        (fun _ => some "C")).result
      = (getTargetList
          [⟨none, some "A", false, false⟩, ⟨none, some "B", true, false⟩,
           ⟨none, some "C", true, true⟩]
          (some (fun t => t.isOnline && t.id == some "B"))).head? ∧
     (selectTarget
        [⟨none, some "A", false, false⟩, ⟨none, some "B", true, false⟩,
         ⟨none, some "C", true, true⟩]
        (some (fun t => t.isOnline && t.id == some "B"))
        (fun _ => some "C")).prompted = none) ∧
    (selectTarget
        [⟨none, some "A", false, false⟩, ⟨none, some "B", true, false⟩,
         ⟨none, some "C", true, true⟩]
        (some (fun t => t.isOnline))
        (fun _ => some "C")).prompted = some [some "B", some "C"] ∧
    (selectTarget
        [⟨none, some "A", false, false⟩, ⟨none, some "B", true, false⟩,
         ⟨none, some "C", true, true⟩]
        (some (fun t => t.isOnline))
        (fun _ => some "C")).result = some ⟨none, some "C", true, true⟩ := by
  refine ⟨(c9_select_target _ _ _).1 (by decide), ?_, ?_⟩
  · exact ((c9_select_target
        [⟨none, some "A", false, false⟩, ⟨none, some "B", true, false⟩,
         ⟨none, some "C", true, true⟩]
        (some (fun t => t.isOnline))
        (fun _ => some "C")).2 (by decide)).1.trans (by decide)
  · exact ((c9_select_target
        [⟨none, some "A", false, false⟩, ⟨none, some "B", true, false⟩,
         ⟨none, some "C", true, true⟩]
        (some (fun t => t.isOnline))
        (fun _ => some "C")).2 (by decide)).2 "C" ⟨none, some "C", true, true⟩
      rfl (by decide) (by decide) (by decide)

/-! ## C4: socket-table parsing -/

theorem string_mk_data (s : String) : String.mk s.data = s := rfl

theorem mk_append_data (a b : String) : String.mk (a.data ++ b.data) = a ++ b := rfl

theorem startsWithData_append {pat s : List Char} (t : List Char)
    (h : startsWithData pat s = true) : startsWithData pat (s ++ t) = true := by
  induction pat generalizing s with
  | nil => rfl
  | cons p ps ih =>
    cases s with
    | nil => simp [startsWithData] at h
    | cons c cs =>
      simp only [startsWithData, Bool.and_eq_true] at h ⊢
      exact ⟨h.1, ih h.2⟩

theorem includesData_append_right {pat s : List Char} (t : List Char)
    (h : includesData pat s = true) : includesData pat (s ++ t) = true := by
  induction s with
  | nil =>
    simp only [includesData] at h
    have : pat = [] := by
      cases pat with
      | nil => rfl
      | cons a l => simp [List.isEmpty] at h
    subst this
    cases t with
    | nil => rfl
    | cons c r => simp [includesData, startsWithData]
  | cons c rest ih =>
    simp only [includesData, Bool.or_eq_true] at h ⊢
    rcases h with h | h
    · exact Or.inl (startsWithData_append (s := c :: rest) t h)
    · exact Or.inr (ih h)

theorem joinSep_data_cons₂ (sep g r : String) (rs : List String) :
    (joinSep sep (g :: r :: rs)).data = g.data ++ sep.data ++ (joinSep sep (r :: rs)).data := by
  show ((g ++ sep) ++ joinSep sep (r :: rs)).data = _
  rw [string_data_append, string_data_append]

theorem splitWSGo_word (w : List Char) (hw : ∀ c ∈ w, isJsWS c = false) :
    ∀ s acc, splitWSGo (w ++ s) acc false = splitWSGo s (w.reverse ++ acc) false := by
  induction w with
  | nil => intro s acc; simp
  | cons c cs ih =>
    intro s acc
    have hc : isJsWS c = false := hw c (List.mem_cons_self c cs)
    have hcs : ∀ x ∈ cs, isJsWS x = false := fun x hx => hw x (List.mem_cons_of_mem c hx)
    simp only [List.cons_append, splitWSGo, hc, Bool.false_eq_true, if_false]
    rw [show cs.append s = cs ++ s from rfl, ih hcs s (c :: acc)]
    simp

theorem splitWSGo_space (s : List Char) (acc : List Char) :
    splitWSGo (' ' :: s) acc false = acc.reverse :: splitWSGo s [] true := by
  simp [splitWSGo, isJsWS]

theorem splitWSGo_gap_nonws (c : Char) (r : List Char) (hc : isJsWS c = false) :
    splitWSGo (c :: r) [] true = splitWSGo (c :: r) [] false := by
  simp [splitWSGo, hc]

/-- A string is a plain field when it is nonempty and whitespace-free. -/
def PlainField (f : String) : Prop :=
  f.data ≠ [] ∧ ∀ c ∈ f.data, isJsWS c = false

instance (f : String) : Decidable (PlainField f) := by
  unfold PlainField; infer_instance

theorem jsSplitWS_spaceJoin (fields : List String) (hne : fields ≠ [])
    (hok : ∀ f ∈ fields, PlainField f) :
    jsSplitWS (joinSep " " fields) = fields := by
  induction fields with
  | nil => cases hne rfl
  | cons f rest ih =>
    have hf := hok f (List.mem_cons_self f rest)
    cases rest with
    | nil =>
      show (splitWSGo (joinSep " " [f]).data [] false).map String.mk = [f]
      have : (joinSep " " [f]).data = f.data ++ [] := by simp [joinSep]
      rw [this, splitWSGo_word f.data hf.2]
      simp [splitWSGo, string_mk_data]
    | cons g gs =>
      have hjoin : (joinSep " " (f :: g :: gs)).data
          = f.data ++ ' ' :: (joinSep " " (g :: gs)).data := by
        rw [joinSep_data_cons₂, List.append_assoc]
        rfl
      have hg := hok g (List.mem_cons_of_mem f (List.mem_cons_self g gs))
      have hgdata : ∃ c cs, (joinSep " " (g :: gs)).data = c :: cs ∧ isJsWS c = false := by
        cases hd : g.data with
        | nil => exact absurd hd hg.1
        | cons c cs =>
          have hcws : isJsWS c = false := hg.2 c (hd ▸ List.mem_cons_self c cs)
          cases gs with
          | nil => exact ⟨c, cs, by simp [joinSep, hd], hcws⟩
          | cons g2 gs2 =>
            refine ⟨c, cs ++ " ".data ++ (joinSep " " (g2 :: gs2)).data, ?_, hcws⟩
            rw [joinSep_data_cons₂, hd]
            simp
      obtain ⟨c, cs, hcs, hcws⟩ := hgdata
      show (splitWSGo (joinSep " " (f :: g :: gs)).data [] false).map String.mk
          = f :: g :: gs
      rw [hjoin, splitWSGo_word f.data hf.2, show f.data.reverse ++ [] = f.data.reverse by simp,
        splitWSGo_space]
      rw [hcs, splitWSGo_gap_nonws c cs hcws, ← hcs]
      have ihr := ih (by simp) (fun x hx => hok x (List.mem_cons_of_mem f hx))
      simpa [string_mk_data] using ihr

theorem not_nl_of_not_ws {c : Char} (h : isJsWS c = false) : (c == '\n') = false := by
  cases hceq : c == '\n' with
  | false => rfl
  | true =>
    have : c = '\n' := by simpa using hceq
    subst this
    simp [isJsWS] at h

theorem splitCharGo_no_sep (sep : Char) (h : List Char)
    (hh : ∀ c ∈ h, (c == sep) = false) :
    ∀ s acc, splitCharGo sep (h ++ s) acc = splitCharGo sep s (h.reverse ++ acc) := by
  induction h with
  | nil => intro s acc; simp
  | cons c cs ih =>
    intro s acc
    have hc : (c == sep) = false := hh c (List.mem_cons_self c cs)
    have hcs : ∀ x ∈ cs, (x == sep) = false := fun x hx => hh x (List.mem_cons_of_mem c hx)
    simp only [List.cons_append, splitCharGo, hc, Bool.false_eq_true, if_false]
    rw [show cs.append s = cs ++ s from rfl, ih hcs s (c :: acc)]
    simp

theorem joinSep_space_no_nl (fields : List String) (hok : ∀ f ∈ fields, PlainField f) :
    ∀ c ∈ (joinSep " " fields).data, (c == '\n') = false := by
  induction fields with
  | nil => intro c hc; simp [joinSep] at hc
  | cons f rest ih =>
    have hf := hok f (List.mem_cons_self f rest)
    cases rest with
    | nil =>
      intro c hc
      exact not_nl_of_not_ws (hf.2 c (by simpa [joinSep] using hc))
    | cons g gs =>
      intro c hc
      rw [joinSep_data_cons₂] at hc
      rcases List.mem_append.mp hc with hc | hc
      · rcases List.mem_append.mp hc with hc | hc
        · exact not_nl_of_not_ws (hf.2 c hc)
        · have : c = ' ' := by simpa using hc
          subst this; rfl
      · exact ih (fun x hx => hok x (List.mem_cons_of_mem f hx)) c hc

theorem jsSplitNl_header_line (header line : String)
    (hh : ∀ c ∈ header.data, (c == '\n') = false)
    (hl : ∀ c ∈ line.data, (c == '\n') = false) :
    jsSplitNl (header ++ "\n" ++ line) = [header, line] := by
  show (splitCharGo '\n' (header ++ "\n" ++ line).data []).map String.mk = _
  have hd : (header ++ "\n" ++ line).data = header.data ++ '\n' :: line.data := by
    rw [string_data_append, string_data_append, List.append_assoc]
    rfl
  rw [hd, splitCharGo_no_sep '\n' header.data hh]
  simp only [splitCharGo, beq_self_eq_true, if_true]
  rw [show line.data = line.data ++ [] by simp, splitCharGo_no_sep '\n' line.data hl]
  simp [splitCharGo, string_mk_data]

theorem at_webview_data :
    ("@webview_devtools_remote_" : String).data
      = '@' :: ("webview_devtools_remote_" : String).data := by decide

theorem webview_path_data (pid : String) :
    ("@webview_devtools_remote_" ++ pid).data
      = '@' :: (("webview_devtools_remote_" : String).data ++ pid.data) := by
  rw [string_data_append, at_webview_data]
  rfl

theorem crosswalk_path_data (pkg : String) :
    ("@" ++ pkg ++ "_devtools_remote").data
      = '@' :: (pkg ++ "_devtools_remote").data := by
  rw [string_data_append, string_data_append, List.append_assoc, string_data_append]
  rfl

theorem webview_path_plain (pid : String) (hpid : ∀ c ∈ pid.data, isJsWS c = false) :
    PlainField ("@webview_devtools_remote_" ++ pid) := by
  have hlit : ∀ c ∈ ("@webview_devtools_remote_" : String).data, isJsWS c = false := by
    decide
  constructor
  · rw [webview_path_data]; simp
  · intro c hc
    rw [string_data_append] at hc
    rcases List.mem_append.mp hc with hc | hc
    · exact hlit c hc
    · exact hpid c hc

theorem socket_line_match_webview (pid pkg n0 rc pr ty ino : String)
    (hpid : ∀ c ∈ pid.data, isJsWS c = false)
    (hn0 : PlainField n0) (hrc : PlainField rc) (hpr : PlainField pr)
    (hty : PlainField ty) (hino : PlainField ino) :
    socketLineMatch pid pkg 3 5 7
      (joinSep " " [n0, rc, pr, "00010000", ty, "01", ino,
        "@webview_devtools_remote_" ++ pid])
      = some ("webview_devtools_remote_" ++ pid) := by
  have hpath := webview_path_plain pid hpid
  have hsplit01 := jsSplitWS_spaceJoin
    [n0, rc, pr, "00010000", ty, "01", ino, "@webview_devtools_remote_" ++ pid]
    (by simp)
    (by
      intro f hf
      simp only [List.mem_cons, List.not_mem_nil, or_false] at hf
      rcases hf with rfl | rfl | rfl | rfl | rfl | rfl | rfl | rfl
      · exact hn0
      · exact hrc
      · exact hpr
      · decide
      · exact hty
      · decide
      · exact hino
      · exact hpath)
  have hinc : includesB ("@webview_devtools_remote_" ++ pid) "_devtools_remote" = true := by
    show includesData _ ("@webview_devtools_remote_" ++ pid).data = true
    rw [string_data_append]
    exact includesData_append_right pid.data (by decide)
  have hget3 : jsGetStr
      [n0, rc, pr, "00010000", ty, "01", ino, "@webview_devtools_remote_" ++ pid]
      3 = some "00010000" := rfl
  have hget5 : jsGetStr
      [n0, rc, pr, "00010000", ty, "01", ino, "@webview_devtools_remote_" ++ pid]
      5 = some "01" := rfl
  have hget7 : jsGetStr
      [n0, rc, pr, "00010000", ty, "01", ino, "@webview_devtools_remote_" ++ pid]
      7 = some ("@webview_devtools_remote_" ++ pid) := rfl
  simp only [socketLineMatch]
  rw [hsplit01, hget3, hget5, hget7]
  simp only [webview_path_data, hinc]
  simp [← webview_path_data, mk_append_data]
  exact mk_append_data "webview_devtools_remote_" pid

theorem socket_line_match_state02 (pid pkg n0 rc pr ty ino : String)
    (hpid : ∀ c ∈ pid.data, isJsWS c = false)
    (hn0 : PlainField n0) (hrc : PlainField rc) (hpr : PlainField pr)
    (hty : PlainField ty) (hino : PlainField ino) :
    socketLineMatch pid pkg 3 5 7
      (joinSep " " [n0, rc, pr, "00010000", ty, "02", ino,
        "@webview_devtools_remote_" ++ pid])
      = none := by
  have hpath := webview_path_plain pid hpid
  have hsplit02 := jsSplitWS_spaceJoin
    [n0, rc, pr, "00010000", ty, "02", ino, "@webview_devtools_remote_" ++ pid]
    (by simp)
    (by
      intro f hf
      simp only [List.mem_cons, List.not_mem_nil, or_false] at hf
      rcases hf with rfl | rfl | rfl | rfl | rfl | rfl | rfl | rfl
      · exact hn0
      · exact hrc
      · exact hpr
      · decide
      · exact hty
      · decide
      · exact hino
      · exact hpath)
  simp only [socketLineMatch]
  rw [hsplit02]
  rfl

theorem socket_line_match_cases (pid pkg line s : String)
    (h : socketLineMatch pid pkg 3 5 7 line = some s) :
    s = "webview_devtools_remote_" ++ pid ∨ s = pkg ++ "_devtools_remote" := by
  simp only [socketLineMatch] at h
  split at h
  · exact Option.noConfusion h
  · split at h
    · exact Option.noConfusion h
    · split at h
      · exact Option.noConfusion h
      · rename_i pathField heq
        split at h
        · exact Option.noConfusion h
        · split at h
          · exact Option.noConfusion h
          · split at h
            · rename_i hbeq
              left
              have hpf : pathField = "@webview_devtools_remote_" ++ pid := by
                simpa using hbeq
              have hs := Option.some.inj h
              rw [← hs, hpf, webview_path_data]
              simp only [List.drop_succ_cons, List.drop_zero]
              exact mk_append_data "webview_devtools_remote_" pid
            · split at h
              · rename_i hbeq
                right
                have hpf : pathField = "@" ++ pkg ++ "_devtools_remote" := by
                  simpa using hbeq
                have hs := Option.some.inj h
                rw [← hs, hpf, crosswalk_path_data]
                exact string_mk_data _
              · exact Option.noConfusion h

theorem find_socket_webview (pid pkg n0 rc pr ty ino : String)
    (hpid : ∀ c ∈ pid.data, isJsWS c = false)
    (hn0 : PlainField n0) (hrc : PlainField rc) (hpr : PlainField pr)
    (hty : PlainField ty) (hino : PlainField ino) :
    findSocketName pid pkg
      ("Num RefCount Protocol Flags Type St Inode Path" ++ "\n"
        ++ joinSep " " [n0, rc, pr, "00010000", ty, "01", ino,
             "@webview_devtools_remote_" ++ pid])
      = some ("webview_devtools_remote_" ++ pid) := by
  have hpath := webview_path_plain pid hpid
  have hfields : ∀ f ∈ [n0, rc, pr, "00010000", ty, "01", ino,
      "@webview_devtools_remote_" ++ pid], PlainField f := by
    intro f hf
    simp only [List.mem_cons, List.not_mem_nil, or_false] at hf
    rcases hf with rfl | rfl | rfl | rfl | rfl | rfl | rfl | rfl
    · exact hn0
    · exact hrc
    · exact hpr
    · decide
    · exact hty
    · decide
    · exact hino
    · exact hpath
  have hsplitnl := jsSplitNl_header_line
    "Num RefCount Protocol Flags Type St Inode Path"
    (joinSep " " [n0, rc, pr, "00010000", ty, "01", ino,
      "@webview_devtools_remote_" ++ pid])
    (by decide)
    (joinSep_space_no_nl _ hfields)
  simp only [findSocketName]
  rw [hsplitnl]
  simp only [List.headD, List.tail, List.findSome?]
  rw [show jsIndexOf (jsSplitWS "Num RefCount Protocol Flags Type St Inode Path") "Flags"
      = 3 by decide,
    show jsIndexOf (jsSplitWS "Num RefCount Protocol Flags Type St Inode Path") "St"
      = 5 by decide,
    show jsIndexOf (jsSplitWS "Num RefCount Protocol Flags Type St Inode Path") "Path"
      = 7 by decide,
    socket_line_match_webview pid pkg n0 rc pr ty ino hpid hn0 hrc hpr hty hino]

/-- C4: on a socket table with the standard `/proc/net/unix` header, a line
whose `Flags` field is `00010000`, `St` field is `01` and `Path` field is
`@webview_devtools_remote_<pid>` (for the resolved pid) makes the resolver
return the socket name without the leading `@`; the same line with `St`
field `02` is skipped; and a line whose path matches neither
`@webview_devtools_remote_<pid>` nor `@<packageId>_devtools_remote`
contributes nothing (every successful match is one of the two patterns). -/
theorem c4_socket_table_parsing (pid pkg n0 rc pr ty ino : String)
    (hpid : ∀ c ∈ pid.data, isJsWS c = false)
    (hn0 : PlainField n0) (hrc : PlainField rc) (hpr : PlainField pr)
    (hty : PlainField ty) (hino : PlainField ino) :
    (jsIndexOf (jsSplitWS "Num RefCount Protocol Flags Type St Inode Path") "Flags" = 3 ∧
     jsIndexOf (jsSplitWS "Num RefCount Protocol Flags Type St Inode Path") "St" = 5 ∧
     jsIndexOf (jsSplitWS "Num RefCount Protocol Flags Type St Inode Path") "Path" = 7) ∧
    socketLineMatch pid pkg 3 5 7
      (joinSep " " [n0, rc, pr, "00010000", ty, "01", ino,
        "@webview_devtools_remote_" ++ pid])
      = some ("webview_devtools_remote_" ++ pid) ∧
    socketLineMatch pid pkg 3 5 7
      (joinSep " " [n0, rc, pr, "00010000", ty, "02", ino,
        "@webview_devtools_remote_" ++ pid])
      = none ∧
    (∀ line s, socketLineMatch pid pkg 3 5 7 line = some s →
      s = "webview_devtools_remote_" ++ pid ∨ s = pkg ++ "_devtools_remote") ∧
    findSocketName pid pkg
      ("Num RefCount Protocol Flags Type St Inode Path" ++ "\n"
        ++ joinSep " " [n0, rc, pr, "00010000", ty, "01", ino,
             "@webview_devtools_remote_" ++ pid])
      = some ("webview_devtools_remote_" ++ pid) :=
  ⟨⟨by decide, by decide, by decide⟩,
   socket_line_match_webview pid pkg n0 rc pr ty ino hpid hn0 hrc hpr hty hino,
   socket_line_match_state02 pid pkg n0 rc pr ty ino hpid hn0 hrc hpr hty hino,
   fun line s h => socket_line_match_cases pid pkg line s h,
   find_socket_webview pid pkg n0 rc pr ty ino hpid hn0 hrc hpr hty hino⟩

/-- Witness for C4 at a concrete socket table (pid `1234`, package
`com.example.app`, a realistic entry line). -/
theorem c4_witness :
    socketLineMatch "1234" "com.example.app" 3 5 7
      (joinSep " " ["0000000000000000:", "00000002", "00000000", "00010000",
        "0001", "01", "20894", "@webview_devtools_remote_" ++ "1234"])
      = some ("webview_devtools_remote_" ++ "1234") ∧
    socketLineMatch "1234" "com.example.app" 3 5 7
      (joinSep " " ["0000000000000000:", "00000002", "00000000", "00010000",
        "0001", "02", "20894", "@webview_devtools_remote_" ++ "1234"])
      = none ∧
    findSocketName "1234" "com.example.app"
      ("Num RefCount Protocol Flags Type St Inode Path" ++ "\n"
        ++ joinSep " " ["0000000000000000:", "00000002", "00000000", "00010000",
             "0001", "01", "20894", "@webview_devtools_remote_" ++ "1234"])
      = some ("webview_devtools_remote_" ++ "1234") :=
  ⟨(c4_socket_table_parsing "1234" "com.example.app" "0000000000000000:" "00000002"
      "00000000" "0001" "20894" (by decide) (by decide) (by decide) (by decide)
      (by decide) (by decide)).2.1,
   (c4_socket_table_parsing "1234" "com.example.app" "0000000000000000:" "00000002"
      "00000000" "0001" "20894" (by decide) (by decide) (by decide) (by decide)
      (by decide) (by decide)).2.2.1,
   (c4_socket_table_parsing "1234" "com.example.app" "0000000000000000:" "00000002"
      "00000000" "0001" "20894" (by decide) (by decide) (by decide) (by decide)
      (by decide) (by decide)).2.2.2.2⟩

/-! ## Basic lemmas about the dev-server handler -/

theorem addEvent_fields (st : IonicState) (e : SEvent) :
    (addEvent st e).serverOut = st.serverOut ∧
    (addEvent st e).serverReady = st.serverReady ∧
    (addEvent st e).appReady = st.appReady ∧
    (addEvent st e).timer = st.timer ∧
    (addEvent st e).serverReadyClears = st.serverReadyClears ∧
    (addEvent st e).events = st.events ++ [e] :=
  ⟨rfl, rfl, rfl, rfl, rfl, rfl⟩

theorem stepMultiNetwork_events (out : String) (st : IonicState) :
    ∃ δ, (stepMultiNetwork out st).events = st.events ++ δ ∧
      (stepMultiNetwork out st).serverOut = st.serverOut ∧
      (stepMultiNetwork out st).serverReady = st.serverReady ∧
      (stepMultiNetwork out st).appReady = st.appReady ∧
      (stepMultiNetwork out st).timer = st.timer ∧
      (stepMultiNetwork out st).serverReadyClears = st.serverReadyClears := by
  unfold stepMultiNetwork
  by_cases h : includesB out "Multiple network interfaces detected" = true
  · exact ⟨[.rejectEv (multiNetworkErrorMessage out)], by simp [h, addEvent]⟩
  · exact ⟨[], by simp [h, addEvent]⟩

theorem stepServerError_events (cfg : IonicConfig) (out : String) (st : IonicState) :
    ∃ δ, (stepServerError cfg out st).events = st.events ++ δ ∧
      (stepServerError cfg out st).serverOut = st.serverOut ∧
      (stepServerError cfg out st).serverReady = st.serverReady ∧
      (stepServerError cfg out st).appReady = st.appReady ∧
      (stepServerError cfg out st).timer = st.timer ∧
      (stepServerError cfg out st).serverReadyClears = st.serverReadyClears := by
  unfold stepServerError
  cases h : getServerErrorMessage cfg.isIonic4 out with
  | some m => exact ⟨[.rejectEv m], by simp [addEvent]⟩
  | none => exact ⟨[], by simp [addEvent]⟩

theorem resolveIfPossible_serverOut (cfg : IonicConfig) (ready : IonicDevServerStatus)
    (urls : Option (List String)) (st : IonicState) :
    (resolveIfPossible cfg ready urls st).serverOut = st.serverOut := by
  unfold resolveIfPossible
  split
  · rfl
  · split
    · rfl
    · rfl

theorem resolveIfPossible_events (cfg : IonicConfig) (ready : IonicDevServerStatus)
    (urls : Option (List String)) (st : IonicState) :
    ∃ δ, (resolveIfPossible cfg ready urls st).events = st.events ++ δ := by
  unfold resolveIfPossible
  split
  · exact ⟨[], by simp⟩
  · split
    · exact ⟨[.resolveEv (urls.getD [])], rfl⟩
    · exact ⟨[], by simp⟩

theorem stepServerReady_fields (cfg : IonicConfig) (out : String) (st : IonicState) :
    (stepServerReady cfg out st).serverOut = st.serverOut ∧
    (stepServerReady cfg out st).appReady = st.appReady ∧
    (stepServerReady cfg out st).events = st.events := by
  unfold stepServerReady
  split
  · rename_i hguard
    have h' := hguard
    simp only [Bool.and_eq_true, Bool.not_eq_true'] at h'
    unfold resolveIfPossible
    rw [if_pos (by simp [h'.1])]
    exact ⟨rfl, rfl, rfl⟩
  · exact ⟨rfl, rfl, rfl⟩

theorem stepServerReady_eq_of_serverReady (cfg : IonicConfig) (out : String)
    (st : IonicState) (h : st.serverReady = true) :
    stepServerReady cfg out st = st := by
  unfold stepServerReady
  simp [h]

theorem stepAppReady_serverOut (cfg : IonicConfig) (out : String) (st : IonicState) :
    (stepAppReady cfg out st).serverOut = st.serverOut := by
  unfold stepAppReady
  split
  · exact resolveIfPossible_serverOut cfg _ _ st
  · rfl

theorem stepAppReady_serverReady (cfg : IonicConfig) (out : String) (st : IonicState) :
    (stepAppReady cfg out st).serverReady = st.serverReady := by
  unfold stepAppReady resolveIfPossible
  split
  · rename_i hguard
    simp only [Bool.and_eq_true, Bool.not_eq_true'] at hguard
    split
    · rename_i hfirst
      simp only [Bool.and_eq_true, Bool.not_eq_true'] at hfirst
      exact absurd hguard.1.1 (by simp [hfirst.2])
    · split
      · simp [hguard.1.1, addEvent]
      · rfl
  · rfl

theorem serverOutputHandler_serverOut (cfg : IonicConfig) (st : IonicState) (d : String) :
    (serverOutputHandler cfg st d).serverOut = st.serverOut ++ d := by
  unfold serverOutputHandler
  obtain ⟨δ₂, h2⟩ := stepServerError_events cfg (st.serverOut ++ d)
    (stepMultiNetwork (st.serverOut ++ d)
      (stepAppReady cfg (st.serverOut ++ d)
        (stepServerReady cfg (st.serverOut ++ d) { st with serverOut := st.serverOut ++ d })))
  obtain ⟨δ₁, h1⟩ := stepMultiNetwork_events (st.serverOut ++ d)
    (stepAppReady cfg (st.serverOut ++ d)
      (stepServerReady cfg (st.serverOut ++ d) { st with serverOut := st.serverOut ++ d }))
  rw [h2.2.1, h1.2.1, stepAppReady_serverOut,
    (stepServerReady_fields cfg (st.serverOut ++ d) _).1]

theorem stepServerReady_cases (cfg : IonicConfig) (out : String) (st : IonicState) :
    stepServerReady cfg out st = st ∨
    (st.serverReady = false ∧ (serverUrlExec out).isSome = true ∧
      stepServerReady cfg out st =
        { st with
          timer := some (.appPhase cfg.appReadyTimeout)
          serverReady := true
          serverReadyClears := st.serverReadyClears + 1 }) := by
  unfold stepServerReady
  split
  · rename_i hguard
    have h' := hguard
    simp only [Bool.and_eq_true, Bool.not_eq_true'] at h'
    right
    refine ⟨h'.1, h'.2, ?_⟩
    unfold resolveIfPossible
    rw [if_pos (by simp [h'.1])]
  · left; rfl

theorem stepAppReady_cases (cfg : IonicConfig) (out : String) (st : IonicState) :
    stepAppReady cfg out st = st ∨
    (st.serverReady = true ∧ st.appReady = false ∧
      (cfg.isServe || appDeferTest cfg.cliArgs out) = true ∧
      stepAppReady cfg out st =
        { (addEvent st (.resolveEv (capturedUrls out))) with
          timer := none
          appReady := true }) := by
  unfold stepAppReady
  split
  · rename_i hguard
    have h' := hguard
    simp only [Bool.and_eq_true, Bool.not_eq_true'] at h'
    right
    refine ⟨h'.1.1, h'.1.2, h'.2, ?_⟩
    unfold resolveIfPossible
    rw [if_neg (by simp [h'.1.1]), if_pos (by simp [h'.1.1])]
    rfl
  · left; rfl

theorem serverOutputHandler_events_mono (cfg : IonicConfig) (st : IonicState) (d : String) :
    ∃ δ, (serverOutputHandler cfg st d).events = st.events ++ δ := by
  unfold serverOutputHandler
  obtain ⟨δ₂, h2⟩ := stepServerError_events cfg (st.serverOut ++ d)
    (stepMultiNetwork (st.serverOut ++ d)
      (stepAppReady cfg (st.serverOut ++ d)
        (stepServerReady cfg (st.serverOut ++ d) { st with serverOut := st.serverOut ++ d })))
  obtain ⟨δ₁, h1⟩ := stepMultiNetwork_events (st.serverOut ++ d)
    (stepAppReady cfg (st.serverOut ++ d)
      (stepServerReady cfg (st.serverOut ++ d) { st with serverOut := st.serverOut ++ d }))
  rcases stepAppReady_cases cfg (st.serverOut ++ d)
      (stepServerReady cfg (st.serverOut ++ d) { st with serverOut := st.serverOut ++ d })
    with hA | ⟨_, _, _, hA⟩ <;>
    rw [h2.1, h1.1, hA] <;>
    simp [addEvent, (stepServerReady_fields cfg (st.serverOut ++ d) _).2.2]

theorem serverOutputHandler_event_mem (cfg : IonicConfig) (st : IonicState) (d : String)
    (e : SEvent) (h : e ∈ st.events) : e ∈ (serverOutputHandler cfg st d).events := by
  obtain ⟨δ, hδ⟩ := serverOutputHandler_events_mono cfg st d
  rw [hδ]
  exact List.mem_append_left δ h

theorem serverOutputHandler_appReady_mono (cfg : IonicConfig) (st : IonicState) (d : String)
    (h : st.appReady = true) : (serverOutputHandler cfg st d).appReady = true := by
  unfold serverOutputHandler
  obtain ⟨δ₂, h2⟩ := stepServerError_events cfg (st.serverOut ++ d)
    (stepMultiNetwork (st.serverOut ++ d)
      (stepAppReady cfg (st.serverOut ++ d)
        (stepServerReady cfg (st.serverOut ++ d) { st with serverOut := st.serverOut ++ d })))
  obtain ⟨δ₁, h1⟩ := stepMultiNetwork_events (st.serverOut ++ d)
    (stepAppReady cfg (st.serverOut ++ d)
      (stepServerReady cfg (st.serverOut ++ d) { st with serverOut := st.serverOut ++ d }))
  rw [h2.2.2.2.1, h1.2.2.2.1]
  rcases stepAppReady_cases cfg (st.serverOut ++ d)
      (stepServerReady cfg (st.serverOut ++ d) { st with serverOut := st.serverOut ++ d })
    with hA | ⟨_, _, _, hA⟩ <;>
    rw [hA] <;>
    simp [addEvent, (stepServerReady_fields cfg (st.serverOut ++ d) _).2.1, h]

/-! ## Preservation of the timeout discipline -/

theorem initIonicState_timer_invariant (cfg : IonicConfig) :
    TimerInvariant cfg (initIonicState cfg) := by
  refine ⟨fun _ => ⟨rfl, rfl, rfl⟩, fun h _ => ?_, fun h => ?_⟩ <;>
    simp [initIonicState] at h

theorem serverOutputHandler_timer_invariant (cfg : IonicConfig) (st : IonicState)
    (d : String) (h : TimerInvariant cfg st) :
    TimerInvariant cfg (serverOutputHandler cfg st d) := by
  unfold serverOutputHandler
  set out := st.serverOut ++ d with hout
  have h1 : TimerInvariant cfg { st with serverOut := out } := h
  set st1 : IonicState := { st with serverOut := out } with hst1
  have h2 : TimerInvariant cfg (stepServerReady cfg out st1) := by
    rcases stepServerReady_cases cfg out st1 with hc | ⟨hsr, _, hc⟩
    · rw [hc]; exact h1
    · rw [hc]
      obtain ⟨_, hnapp, hclears⟩ := h1.1 hsr
      exact ⟨fun hfalse => by simp at hfalse,
        fun _ _ => ⟨rfl, by simpa using hclears⟩,
        fun happ => by simp only [] at happ; rw [show st1.appReady = false from hnapp] at happ; cases happ⟩
  have h3 : TimerInvariant cfg (stepAppReady cfg out (stepServerReady cfg out st1)) := by
    rcases stepAppReady_cases cfg out (stepServerReady cfg out st1) with hc | ⟨hsr, hnapp, _, hc⟩
    · rw [hc]; exact h2
    · rw [hc]
      obtain ⟨_, hclears⟩ := h2.2.1 hsr hnapp
      exact ⟨fun hfalse => by simp [addEvent, hsr] at hfalse,
        fun _ hfalse => by simp at hfalse,
        fun _ => ⟨rfl, by simpa [addEvent] using hsr, by simpa [addEvent] using hclears⟩⟩
  have h4 : TimerInvariant cfg
      (stepMultiNetwork out (stepAppReady cfg out (stepServerReady cfg out st1))) := by
    obtain ⟨δ, hδ⟩ := stepMultiNetwork_events out
      (stepAppReady cfg out (stepServerReady cfg out st1))
    exact ⟨fun hf => by
        rw [hδ.2.2.1] at hf
        have := h3.1 hf
        rw [hδ.2.2.2.1, hδ.2.2.2.2.1, hδ.2.2.2.2.2]
        exact this,
      fun hs ha => by
        rw [hδ.2.2.1] at hs
        rw [hδ.2.2.2.1] at ha
        have := h3.2.1 hs ha
        rw [hδ.2.2.2.2.1, hδ.2.2.2.2.2]
        exact this,
      fun ha => by
        rw [hδ.2.2.2.1] at ha
        have := h3.2.2 ha
        rw [hδ.2.2.2.2.1, hδ.2.2.1, hδ.2.2.2.2.2]
        exact this⟩
  obtain ⟨δ, hδ⟩ := stepServerError_events cfg out
    (stepMultiNetwork out (stepAppReady cfg out (stepServerReady cfg out st1)))
  exact ⟨fun hf => by
      rw [hδ.2.2.1] at hf
      have := h4.1 hf
      rw [hδ.2.2.2.1, hδ.2.2.2.2.1, hδ.2.2.2.2.2]
      exact this,
    fun hs ha => by
      rw [hδ.2.2.1] at hs
      rw [hδ.2.2.2.1] at ha
      have := h4.2.1 hs ha
      rw [hδ.2.2.2.2.1, hδ.2.2.2.2.2]
      exact this,
    fun ha => by
      rw [hδ.2.2.2.1] at ha
      have := h4.2.2 ha
      rw [hδ.2.2.2.2.1, hδ.2.2.1, hδ.2.2.2.2.2]
      exact this⟩

theorem runDetector_timer_invariant (cfg : IonicConfig) (chunks : List String) :
    TimerInvariant cfg (runDetector cfg chunks) := by
  have : ∀ (l : List String) (st : IonicState), TimerInvariant cfg st →
      TimerInvariant cfg (l.foldl (serverOutputHandler cfg) st) := by
    intro l
    induction l with
    | nil => intro st h; exact h
    | cons c cs ih =>
      intro st h
      exact ih _ (serverOutputHandler_timer_invariant cfg st c h)
  exact this chunks _ (initIonicState_timer_invariant cfg)

/-! ## C7: the two readiness timeouts -/

theorem server_timeout_head (ms : Nat) :
    (timeoutMessage (.serverPhase ms)).data.head? = some 'S' := rfl

theorem app_timeout_head (ms : Nat) :
    (timeoutMessage (.appPhase ms)).data.head? = some 'B' := rfl

theorem tool_error_head (x : String) :
    ("Error in the Ionic live reload server: " ++ osEOL ++ x).data.head? = some 'E' := rfl

theorem getServerErrorMessage_head (b : Bool) (channel msg : String)
    (h : getServerErrorMessage b channel = some msg) :
    msg.data.head? = some 'E' := by
  unfold getServerErrorMessage at h
  split at h
  · cases h
  · cases hscan : scanError channel.data with
    | none => rw [hscan] at h; cases h
    | some m =>
      rw [hscan] at h
      have := Option.some.inj h
      rw [← this]
      exact tool_error_head (String.mk m)

/-- C7: the server-ready timeout is pending exactly until the transition into
`ServerReady` and is disarmed exactly once, at that transition (the clear
count is 0 before `ServerReady` and 1 from then on); the app-ready timeout is
armed only at that same transition and is pending exactly between
`ServerReady` and `AppReady`; after `AppReady` no timeout is pending; and a
timeout expiry rejects with a phase-specific message containing the
configured deadline, distinct from every tool-reported error message. -/
theorem c7_timeout_discipline (cfg : IonicConfig) (chunks : List String) :
    (∀ i, TimerInvariant cfg (runDetector cfg (chunks.take i))) ∧
    (∀ ms : Nat, (toString ms).data <:+: (timeoutMessage (.serverPhase ms)).data ∧
      (toString ms).data <:+: (timeoutMessage (.appPhase ms)).data) ∧
    (∀ a b : Nat, timeoutMessage (.serverPhase a) ≠ timeoutMessage (.appPhase b)) ∧
    (∀ b channel msg k, getServerErrorMessage b channel = some msg →
      msg ≠ timeoutMessage k) := by
  refine ⟨fun i => runDetector_timer_invariant cfg (chunks.take i), fun ms => ⟨?_, ?_⟩,
    fun a b hab => ?_, fun b channel msg k hmsg heq => ?_⟩
  · exact ⟨("Starting the Ionic dev server timed out (" : String).data,
      (" ms)" : String).data, by simp [timeoutMessage, string_data_append]⟩
  · exact ⟨("Building and deploying the app timed out (" : String).data,
      (" ms)" : String).data, by simp [timeoutMessage, string_data_append]⟩
  · have h1 := congrArg (fun s : String => s.data.head?) hab
    simp only [] at h1
    rw [server_timeout_head, app_timeout_head] at h1
    cases h1
  · have hE := getServerErrorMessage_head b channel msg hmsg
    cases k with
    | serverPhase t =>
      rw [heq, server_timeout_head] at hE
      cases hE
    | appPhase t =>
      rw [heq, app_timeout_head] at hE
      cases hE

/-- Witness for C7: the invariant at a concrete one-chunk run, and a concrete
tool-reported error distinct from a concrete timeout message. -/
theorem c7_witness :
    (∀ i, TimerInvariant ⟨["run", "android"], false, 60000, 120000⟩
      (runDetector ⟨["run", "android"], false, 60000, 120000⟩
        (["dev server running: http://localhost:8100\n"].take i))) ∧
    getServerErrorMessage false "error: boom"
      = some ("Error in the Ionic live reload server: " ++ osEOL ++ "error: boom") ∧
    ("Error in the Ionic live reload server: " ++ osEOL ++ "error: boom")
      ≠ timeoutMessage (.serverPhase 60000) :=
  ⟨(c7_timeout_discipline ⟨["run", "android"], false, 60000, 120000⟩
      ["dev server running: http://localhost:8100\n"]).1,
   by decide,
   (c7_timeout_discipline ⟨["run", "android"], false, 60000, 120000⟩
      ["dev server running: http://localhost:8100\n"]).2.2.2 false "error: boom"
      _ (.serverPhase 60000) (by decide)⟩

/-! ## C2: the benign `utils-network error while checking` substring -/

theorem getServerErrorMessage_skip (channel : String)
    (h : includesB channel "utils-network error while checking" = true) :
    getServerErrorMessage true channel = none := by
  unfold getServerErrorMessage
  simp [h]

theorem stepMultiNetwork_eq_of_not (out : String) (st : IonicState)
    (h : includesB out "Multiple network interfaces detected" = false) :
    stepMultiNetwork out st = st := by
  unfold stepMultiNetwork
  simp [h]

theorem stepServerError_eq_of_none (cfg : IonicConfig) (out : String) (st : IonicState)
    (h : getServerErrorMessage cfg.isIonic4 out = none) :
    stepServerError cfg out st = st := by
  unfold stepServerError
  rw [h]

theorem stepServerError_some (cfg : IonicConfig) (out : String) (st : IonicState)
    (msg : String) (h : getServerErrorMessage cfg.isIonic4 out = some msg) :
    (stepServerError cfg out st).events = st.events ++ [.rejectEv msg] := by
  unfold stepServerError
  rw [h]
  rfl

/-- C2 counterexample: with a tool version before 4.0.0, a chunk consisting
of the benign probe substring alone does not cause a `Failed` transition —
the substring does not match the fatal `/error:.*/i` pattern (no colon after
`error`), so `getServerErrorMessage` yields nothing and the handler emits no
rejection. -/
theorem c2_counterexample :
    includesB "utils-network error while checking"
      "utils-network error while checking" = true ∧
    getServerErrorMessage false "utils-network error while checking" = none ∧
    (serverOutputHandler ⟨["run", "android"], false, 60000, 120000⟩
      (initIonicState ⟨["run", "android"], false, 60000, 120000⟩)
      "utils-network error while checking").events = [] := by
  refine ⟨by decide, by decide, by decide⟩

/-- C2 (amended): for every channel containing the benign
`utils-network error while checking` substring, a tool version at or above
4.0.0 suppresses the fatal check entirely (`getServerErrorMessage` yields
nothing and the handler emits no rejection, short of the separate
multiple-network-interfaces case); with an earlier version the substring has
no special treatment — the channel causes a `Failed` rejection exactly when
the accumulated output matches the fatal pattern `/error:.*/i`, which the
probe substring alone does not (it lacks the colon). -/
theorem c2_amended_skip_and_error_gate :
    (∀ channel, includesB channel "utils-network error while checking" = true →
      getServerErrorMessage true channel = none) ∧
    (∀ channel, getServerErrorMessage false channel
      = (scanError channel.data).map
          (fun m => "Error in the Ionic live reload server: " ++ osEOL ++ String.mk m)) ∧
    (∀ cfg : IonicConfig, ∀ st : IonicState, ∀ d : String, cfg.isIonic4 = true →
      includesB (st.serverOut ++ d) "utils-network error while checking" = true →
      includesB (st.serverOut ++ d) "Multiple network interfaces detected" = false →
      (serverOutputHandler cfg st d).events.filter SEvent.isRejectEv
        = st.events.filter SEvent.isRejectEv) ∧
    (∀ cfg : IonicConfig, ∀ st : IonicState, ∀ d msg : String,
      getServerErrorMessage cfg.isIonic4 (st.serverOut ++ d) = some msg →
      SEvent.rejectEv msg ∈ (serverOutputHandler cfg st d).events) := by
  refine ⟨getServerErrorMessage_skip, ?_, ?_, ?_⟩
  · intro channel
    unfold getServerErrorMessage
    cases h : scanError channel.data <;> simp [h]
  · intro cfg st d h4 hskip hmulti
    unfold serverOutputHandler
    rw [stepServerError_eq_of_none cfg _ _ (by rw [h4]; exact getServerErrorMessage_skip _ hskip),
      stepMultiNetwork_eq_of_not _ _ hmulti]
    rcases stepAppReady_cases cfg (st.serverOut ++ d)
        (stepServerReady cfg (st.serverOut ++ d) { st with serverOut := st.serverOut ++ d })
      with hA | ⟨_, _, _, hA⟩ <;>
      rw [hA] <;>
      simp [addEvent, (stepServerReady_fields cfg (st.serverOut ++ d) _).2.2,
        List.filter_append, SEvent.isRejectEv]
  · intro cfg st d msg hmsg
    unfold serverOutputHandler
    rw [stepServerError_some cfg _ _ msg hmsg]
    exact List.mem_append_right _ (List.mem_singleton.mpr rfl)

/-- Witness for C2: the skip at a concrete Ionic-4 channel, and a concrete
fatal line producing a rejection event with an earlier version. -/
theorem c2_witness :
    getServerErrorMessage true "utils-network error while checking 127.0.0.1" = none ∧
    SEvent.rejectEv ("Error in the Ionic live reload server: " ++ osEOL ++ "error: boom")
      ∈ (serverOutputHandler ⟨["run", "android"], false, 60000, 120000⟩
          (initIonicState ⟨["run", "android"], false, 60000, 120000⟩)
          "error: boom").events :=
  ⟨c2_amended_skip_and_error_gate.1 "utils-network error while checking 127.0.0.1"
      (by decide),
   c2_amended_skip_and_error_gate.2.2.2 ⟨["run", "android"], false, 60000, 120000⟩
      (initIonicState ⟨["run", "android"], false, 60000, 120000⟩) "error: boom"
      ("Error in the Ionic live reload server: " ++ osEOL ++ "error: boom")
      (by decide)⟩

/-! ## C8: the multiple-network-interfaces rejection -/

theorem stepMultiNetwork_some (out : String) (st : IonicState)
    (h : includesB out "Multiple network interfaces detected" = true) :
    (stepMultiNetwork out st).events
      = st.events ++ [.rejectEv (multiNetworkErrorMessage out)] := by
  unfold stepMultiNetwork
  rw [if_pos h]
  rfl

set_option maxRecDepth 4096 in
theorem multiNetwork_message_infix (out : String) (a : String)
    (ha : a ∈ collectAddrs out) :
    a.data <:+: (multiNetworkErrorMessage out).data := by
  unfold multiNetworkErrorMessage
  rw [if_pos (List.length_pos_of_mem ha)]
  obtain ⟨s, t, hst⟩ := joinSep_mem_infix (osEOL ++ " ") a
    (" Available addresses:" :: collectAddrs out) (List.mem_cons_of_mem _ ha)
  refine ⟨("Your machine has multiple network addresses. Please specify which one your device or emulator will use to communicate with the dev server by adding a \"devServerAddress\": \"ADDRESS\" property to .vscode/launch.json.\n    To get the list of addresses run \"ionic cordova run PLATFORM --livereload\" (where PLATFORM is platform name to run) and wait until prompt with this list is appeared." : String).data ++ s, t, ?_⟩
  rw [string_data_append, ← hst]
  simp only [List.append_assoc]

/-- C8: when the accumulated output contains
`Multiple network interfaces detected` and numbered address lines (matches of
`/(\d+\) .*)/gm`), the handler rejects, and the rejection message contains
every numbered address line verbatim. -/
theorem c8_multi_interface_reject (cfg : IonicConfig) (st : IonicState) (d : String)
    (hmulti : includesB (st.serverOut ++ d) "Multiple network interfaces detected" = true)
    (_haddr : collectAddrs (st.serverOut ++ d) ≠ []) :
    SEvent.rejectEv (multiNetworkErrorMessage (st.serverOut ++ d))
      ∈ (serverOutputHandler cfg st d).events ∧
    ∀ a ∈ collectAddrs (st.serverOut ++ d),
      a.data <:+: (multiNetworkErrorMessage (st.serverOut ++ d)).data := by
  constructor
  · unfold serverOutputHandler
    obtain ⟨δ, hδ⟩ := stepServerError_events cfg (st.serverOut ++ d)
      (stepMultiNetwork (st.serverOut ++ d)
        (stepAppReady cfg (st.serverOut ++ d)
          (stepServerReady cfg (st.serverOut ++ d) { st with serverOut := st.serverOut ++ d })))
    rw [hδ.1]
    refine List.mem_append_left _ ?_
    rw [stepMultiNetwork_some _ _ hmulti]
    exact List.mem_append_right _ (List.mem_singleton.mpr rfl)
  · exact fun a ha => multiNetwork_message_infix _ a ha

/-- Witness for C8 at a concrete output with two numbered address lines. -/
theorem c8_witness :
    collectAddrs ((initIonicState ⟨["run", "android"], false, 60000, 120000⟩).serverOut
        ++ "Multiple network interfaces detected\n1) 10.0.0.1\n2) 192.168.1.5\n")
      = ["1) 10.0.0.1", "2) 192.168.1.5"] ∧
    SEvent.rejectEv (multiNetworkErrorMessage
        ((initIonicState ⟨["run", "android"], false, 60000, 120000⟩).serverOut
          ++ "Multiple network interfaces detected\n1) 10.0.0.1\n2) 192.168.1.5\n"))
      ∈ (serverOutputHandler ⟨["run", "android"], false, 60000, 120000⟩
          (initIonicState ⟨["run", "android"], false, 60000, 120000⟩)
          "Multiple network interfaces detected\n1) 10.0.0.1\n2) 192.168.1.5\n").events ∧
    ∀ a ∈ collectAddrs ((initIonicState ⟨["run", "android"], false, 60000, 120000⟩).serverOut
        ++ "Multiple network interfaces detected\n1) 10.0.0.1\n2) 192.168.1.5\n"),
      a.data <:+: (multiNetworkErrorMessage
        ((initIonicState ⟨["run", "android"], false, 60000, 120000⟩).serverOut
          ++ "Multiple network interfaces detected\n1) 10.0.0.1\n2) 192.168.1.5\n")).data :=
  ⟨by decide,
   (c8_multi_interface_reject ⟨["run", "android"], false, 60000, 120000⟩
      (initIonicState ⟨["run", "android"], false, 60000, 120000⟩)
      "Multiple network interfaces detected\n1) 10.0.0.1\n2) 192.168.1.5\n"
      (by decide) (by decide)).1,
   (c8_multi_interface_reject ⟨["run", "android"], false, 60000, 120000⟩
      (initIonicState ⟨["run", "android"], false, 60000, 120000⟩)
      "Multiple network interfaces detected\n1) 10.0.0.1\n2) 192.168.1.5\n"
      (by decide) (by decide)).2⟩

/-! ## C1: monotonicity of the server-ready pattern under appended output -/

theorem ciStrip_append (pat s t : List Char) {r : List Char}
    (h : ciStrip pat s = some r) : ciStrip pat (s ++ t) = some (r ++ t) := by
  induction pat generalizing s r with
  | nil =>
    simp only [ciStrip] at h
    obtain rfl := Option.some.inj h
    rfl
  | cons p ps ih =>
    cases s with
    | nil => cases h
    | cons c cs =>
      simp only [ciStrip] at h ⊢
      by_cases hc : ciCharEq p c = true
      · rw [if_pos hc] at h ⊢
        exact ih cs h
      · rw [if_neg hc] at h
        cases h

theorem ciStrip_cons_none (p : Char) (ps : List Char) (c : Char) (cs : List Char)
    (h : ciCharEq p c = false) : ciStrip (p :: ps) (c :: cs) = none := by
  simp [ciStrip, h]

theorem ciStrip_head (p : Char) (ps s r : List Char)
    (h : ciStrip (p :: ps) s = some r) :
    ∃ c cs, s = c :: cs ∧ ciCharEq p c = true := by
  cases s with
  | nil => cases h
  | cons c cs =>
    by_cases hc : ciCharEq p c = true
    · exact ⟨c, cs, rfl, hc⟩
    · rw [ciStrip_cons_none p ps c cs (by simpa using hc)] at h
      cases h

theorem ciCharEq_false_of (p q c : Char) (hq : ciCharEq q c = true)
    (hpq : (p.toLower == q.toLower) = false) : ciCharEq p c = false := by
  unfold ciCharEq at hq ⊢
  have h1 : q.toLower = c.toLower := by simpa using hq
  rw [← h1]
  exact hpq

theorem serverUrlHead_append (s t r : List Char) (h : serverUrlHead s = some r) :
    serverUrlHead (s ++ t) = some (r ++ t) := by
  have hA : ("dev server running:" : String).data
      = 'd' :: ("ev server running:" : String).data := rfl
  have hB : ("running dev server:" : String).data
      = 'r' :: ("unning dev server:" : String).data := rfl
  have hC : ("local:" : String).data = 'l' :: ("ocal:" : String).data := rfl
  unfold serverUrlHead at h ⊢
  cases hAs : ciStrip "dev server running:".data s with
  | some rA =>
    rw [hAs] at h
    obtain rfl : rA = r := Option.some.inj h
    rw [ciStrip_append _ _ t hAs]
  | none =>
    rw [hAs] at h
    cases hBs : ciStrip "running dev server:".data s with
    | some rB =>
      rw [hBs] at h
      obtain rfl : rB = r := Option.some.inj h
      obtain ⟨c, cs, rfl, hc⟩ := ciStrip_head 'r' _ _ _ (by rw [← hB]; exact hBs)
      have hAnone : ciStrip "dev server running:".data ((c :: cs) ++ t) = none := by
        rw [hA, List.cons_append]
        exact ciStrip_cons_none _ _ _ _ (ciCharEq_false_of 'd' 'r' c hc (by decide))
      rw [hAnone, ciStrip_append _ _ t hBs]
    | none =>
      rw [hBs] at h
      obtain ⟨c, cs, rfl, hc⟩ := ciStrip_head 'l' _ _ _ (by rw [← hC]; exact h)
      have hAnone : ciStrip "dev server running:".data ((c :: cs) ++ t) = none := by
        rw [hA, List.cons_append]
        exact ciStrip_cons_none _ _ _ _ (ciCharEq_false_of 'd' 'l' c hc (by decide))
      have hBnone : ciStrip "running dev server:".data ((c :: cs) ++ t) = none := by
        rw [hB, List.cons_append]
        exact ciStrip_cons_none _ _ _ _ (ciCharEq_false_of 'r' 'l' c hc (by decide))
      rw [hAnone, hBnone, ciStrip_append _ _ t h]

theorem takeWhile_append_of (p : Char → Bool) (r t : List Char) :
    ∃ m, (r ++ t).takeWhile p = r.takeWhile p ++ m := by
  induction r with
  | nil => exact ⟨t.takeWhile p, by simp⟩
  | cons c cs ih =>
    obtain ⟨m, hm⟩ := ih
    by_cases hc : p c = true
    · exact ⟨m, by simp [List.takeWhile_cons, hc, hm]⟩
    · exact ⟨[], by simp [List.takeWhile_cons, hc]⟩

theorem urlHere_append (s m : List Char) (h : (urlHere s).isSome = true) :
    (urlHere (s ++ m)).isSome = true := by
  unfold urlHere at h ⊢
  cases hcs : ciStrip "http://".data s with
  | none => rw [hcs] at h; cases h
  | some rr =>
    rw [hcs] at h
    cases rr with
    | nil => simp at h
    | cons d r2 =>
      have h' : (if isLineTerm d = true then none
          else some (s.take 7 ++ d :: r2.takeWhile (fun c => !isJsWS c))).isSome = true := h
      rw [ciStrip_append _ _ m hcs, List.cons_append]
      show (if isLineTerm d = true then none
        else some ((s ++ m).take 7 ++ d :: (r2 ++ m).takeWhile (fun c => !isJsWS c))).isSome = true
      by_cases hd : isLineTerm d = true
      · rw [if_pos hd] at h'; cases h'
      · rw [if_neg hd]
        rfl

theorem lastUrl_append (l m : List Char) (h : (lastUrl l).isSome = true) :
    (lastUrl (l ++ m)).isSome = true := by
  induction l with
  | nil => cases h
  | cons c cs ih =>
    have h' : (match lastUrl cs with
        | some u => some u
        | none => urlHere (c :: cs)).isSome = true := h
    show (match lastUrl (cs ++ m) with
      | some u => some u
      | none => urlHere (c :: (cs ++ m))).isSome = true
    cases hcs : lastUrl cs with
    | some v =>
      have hext := ih (by rw [hcs]; rfl)
      cases hext2 : lastUrl (cs ++ m) with
      | some w => rfl
      | none => rw [hext2] at hext; cases hext
    | none =>
      rw [hcs] at h'
      cases hext2 : lastUrl (cs ++ m) with
      | some w => rfl
      | none =>
        exact urlHere_append (c :: cs) m h'

theorem serverUrlAt_append (s t : List Char) (h : (serverUrlAt s).isSome = true) :
    (serverUrlAt (s ++ t)).isSome = true := by
  unfold serverUrlAt at h ⊢
  cases hh : serverUrlHead s with
  | none => rw [hh] at h; cases h
  | some r =>
    rw [hh] at h
    have h' : (lastUrl (r.takeWhile (fun c => !isLineTerm c))).isSome = true := h
    rw [serverUrlHead_append s t r hh]
    show (lastUrl ((r ++ t).takeWhile (fun c => !isLineTerm c))).isSome = true
    obtain ⟨m, hm⟩ := takeWhile_append_of (fun c => !isLineTerm c) r t
    rw [hm]
    exact lastUrl_append _ m h'

theorem scanServerUrl_append (s t : List Char) (h : (scanServerUrl s).isSome = true) :
    (scanServerUrl (s ++ t)).isSome = true := by
  induction s with
  | nil => cases h
  | cons c rest ih =>
    have h' : (match serverUrlAt (c :: rest) with
        | some u => some u
        | none => scanServerUrl rest).isSome = true := h
    show (match serverUrlAt (c :: (rest ++ t)) with
      | some u => some u
      | none => scanServerUrl (rest ++ t)).isSome = true
    cases hat : serverUrlAt (c :: rest) with
    | some u =>
      have hext := serverUrlAt_append (c :: rest) t (by rw [hat]; rfl)
      cases hext2 : serverUrlAt (c :: (rest ++ t)) with
      | some w => rfl
      | none =>
        rw [show serverUrlAt ((c :: rest) ++ t) = serverUrlAt (c :: (rest ++ t)) from rfl,
          hext2] at hext
        cases hext
    | none =>
      rw [hat] at h'
      cases hext2 : serverUrlAt (c :: (rest ++ t)) with
      | some w => rfl
      | none =>
        exact ih h'

theorem serverUrlExec_append (a b : String) (h : (serverUrlExec a).isSome = true) :
    (serverUrlExec (a ++ b)).isSome = true := by
  unfold serverUrlExec at h ⊢
  rw [string_data_append]
  cases hs : scanServerUrl a.data with
  | none => rw [hs] at h; cases h
  | some u =>
    have := scanServerUrl_append a.data b.data (by rw [hs]; rfl)
    cases hext : scanServerUrl (a.data ++ b.data) with
    | some w => rfl
    | none => rw [hext] at this; cases this

theorem stepServerReady_serverReady (cfg : IonicConfig) (out : String) (st : IonicState) :
    (stepServerReady cfg out st).serverReady
      = (st.serverReady || (serverUrlExec out).isSome) := by
  rcases stepServerReady_cases cfg out st with hc | ⟨hsr, hso, hc⟩
  · rw [hc]
    unfold stepServerReady at hc
    by_cases hsr : st.serverReady = true
    · simp [hsr]
    · have hsr' : st.serverReady = false := by simpa using hsr
      by_cases hso : (serverUrlExec out).isSome = true
      · exfalso
        have hguard : (!st.serverReady && (serverUrlExec out).isSome) = true := by
          simp [hsr', hso]
        rw [if_pos hguard] at hc
        have := congrArg IonicState.serverReady hc
        unfold resolveIfPossible at this
        rw [if_pos (by simp [hsr'])] at this
        simp [hsr'] at this
      · have hso' : (serverUrlExec out).isSome = false := by simpa using hso
        simp [hsr', hso']
  · rw [hc]
    simp [hso]

theorem serverOutputHandler_appReady_step (cfg : IonicConfig) (st : IonicState) (d : String)
    (hurl : (serverUrlExec (st.serverOut ++ d)).isSome = true)
    (happ : (cfg.isServe || appDeferTest cfg.cliArgs (st.serverOut ++ d)) = true) :
    (serverOutputHandler cfg st d).appReady = true := by
  unfold serverOutputHandler
  obtain ⟨δ₂, h2⟩ := stepServerError_events cfg (st.serverOut ++ d)
    (stepMultiNetwork (st.serverOut ++ d)
      (stepAppReady cfg (st.serverOut ++ d)
        (stepServerReady cfg (st.serverOut ++ d) { st with serverOut := st.serverOut ++ d })))
  obtain ⟨δ₁, h1⟩ := stepMultiNetwork_events (st.serverOut ++ d)
    (stepAppReady cfg (st.serverOut ++ d)
      (stepServerReady cfg (st.serverOut ++ d) { st with serverOut := st.serverOut ++ d }))
  rw [h2.2.2.2.1, h1.2.2.2.1]
  have hx2sr : (stepServerReady cfg (st.serverOut ++ d)
      { st with serverOut := st.serverOut ++ d }).serverReady = true := by
    rw [stepServerReady_serverReady]
    simp [hurl]
  by_cases hap : (stepServerReady cfg (st.serverOut ++ d)
      { st with serverOut := st.serverOut ++ d }).appReady = true
  · rcases stepAppReady_cases cfg (st.serverOut ++ d)
        (stepServerReady cfg (st.serverOut ++ d) { st with serverOut := st.serverOut ++ d })
      with hA | ⟨_, _, _, hA⟩
    · rw [hA]; exact hap
    · rw [hA]
  · have hap' : (stepServerReady cfg (st.serverOut ++ d)
        { st with serverOut := st.serverOut ++ d }).appReady = false := by simpa using hap
    unfold stepAppReady
    rw [if_pos (by simp [hx2sr, hap', happ])]
    unfold resolveIfPossible
    rw [if_neg (by simp [hx2sr]), if_pos (by simp [hx2sr])]

theorem serverOutputHandler_appReady_event (cfg : IonicConfig) (st : IonicState) (d : String)
    (h1 : st.appReady = false) (h2 : (serverOutputHandler cfg st d).appReady = true) :
    SEvent.resolveEv (capturedUrls (st.serverOut ++ d))
      ∈ (serverOutputHandler cfg st d).events := by
  unfold serverOutputHandler at h2 ⊢
  obtain ⟨δ₂, hh2⟩ := stepServerError_events cfg (st.serverOut ++ d)
    (stepMultiNetwork (st.serverOut ++ d)
      (stepAppReady cfg (st.serverOut ++ d)
        (stepServerReady cfg (st.serverOut ++ d) { st with serverOut := st.serverOut ++ d })))
  obtain ⟨δ₁, hh1⟩ := stepMultiNetwork_events (st.serverOut ++ d)
    (stepAppReady cfg (st.serverOut ++ d)
      (stepServerReady cfg (st.serverOut ++ d) { st with serverOut := st.serverOut ++ d }))
  rw [hh2.2.2.2.1, hh1.2.2.2.1] at h2
  rw [hh2.1, hh1.1]
  rcases stepAppReady_cases cfg (st.serverOut ++ d)
      (stepServerReady cfg (st.serverOut ++ d) { st with serverOut := st.serverOut ++ d })
    with hA | ⟨_, _, _, hA⟩
  · exfalso
    rw [hA] at h2
    have hfix := (stepServerReady_fields cfg (st.serverOut ++ d)
      { st with serverOut := st.serverOut ++ d }).2.1
    rw [hfix] at h2
    simp only [] at h2
    rw [h1] at h2
    cases h2
  · rw [hA]
    refine List.mem_append_left _ (List.mem_append_left _ ?_)
    show SEvent.resolveEv (capturedUrls (st.serverOut ++ d))
      ∈ ((stepServerReady cfg (st.serverOut ++ d)
          { st with serverOut := st.serverOut ++ d }).events
        ++ [SEvent.resolveEv (capturedUrls (st.serverOut ++ d))])
    exact List.mem_append_right _ (List.mem_singleton.mpr rfl)

theorem foldl_handler_serverOut (cfg : IonicConfig) :
    ∀ (l : List String) (st : IonicState),
      ∃ r, (l.foldl (serverOutputHandler cfg) st).serverOut = st.serverOut ++ r
  | [], st => ⟨"", by simp⟩
  | c :: cs, st => by
    obtain ⟨r, hr⟩ := foldl_handler_serverOut cfg cs (serverOutputHandler cfg st c)
    exact ⟨c ++ r, by
      rw [List.foldl_cons, hr, serverOutputHandler_serverOut, String.append_assoc]⟩

theorem foldl_handler_appReady (cfg : IonicConfig) :
    ∀ (l : List String) (st : IonicState), st.appReady = true →
      (l.foldl (serverOutputHandler cfg) st).appReady = true
  | [], _, h => h
  | c :: cs, st, h => by
    rw [List.foldl_cons]
    exact foldl_handler_appReady cfg cs _ (serverOutputHandler_appReady_mono cfg st c h)

theorem foldl_handler_event (cfg : IonicConfig) :
    ∀ (l : List String) (st : IonicState) (e : SEvent), e ∈ st.events →
      e ∈ (l.foldl (serverOutputHandler cfg) st).events
  | [], _, _, h => h
  | c :: cs, st, e, h => by
    rw [List.foldl_cons]
    exact foldl_handler_event cfg cs _ e (serverOutputHandler_event_mem cfg st c e h)

theorem runDetector_take_succ (cfg : IonicConfig) (chunks : List String) (n : Nat)
    (hn : n < chunks.length) :
    runDetector cfg (chunks.take (n + 1))
      = serverOutputHandler cfg (runDetector cfg (chunks.take n)) chunks[n] := by
  unfold runDetector
  rw [List.take_succ, List.getElem?_eq_getElem hn, List.foldl_append]
  rfl

theorem runDetector_take_of_le (cfg : IonicConfig) (chunks : List String) (k m : Nat)
    (hkm : k ≤ m) :
    runDetector cfg (chunks.take m)
      = ((chunks.take m).drop k).foldl (serverOutputHandler cfg)
          (runDetector cfg (chunks.take k)) := by
  unfold runDetector
  conv_lhs => rw [← List.take_append_drop k (chunks.take m)]
  rw [List.foldl_append, List.take_take, min_eq_left hkm]

theorem runDetector_drop (cfg : IonicConfig) (chunks : List String) (m : Nat) :
    runDetector cfg chunks
      = (chunks.drop m).foldl (serverOutputHandler cfg)
          (runDetector cfg (chunks.take m)) := by
  unfold runDetector
  conv_lhs => rw [← List.take_append_drop m chunks]
  rw [List.foldl_append]

/-- C1: for every chunk sequence whose accumulated output matches the
server-ready pattern after `k` chunks and the app-ready pattern after
`m ≥ k` chunks, the detector reaches `AppReady` and calls `_resolve` with
the captured URL list (the URLs captured from the accumulated output at the
resolving chunk); and on every chunk sequence whatsoever the detector is in
`AppReady` only when `ServerReady` was already reached (the `AppReady`
resolution path requires the `serverReady` flag). -/
theorem c1_detector_ordering_and_resolution (cfg : IonicConfig) (chunks : List String)
    (k m : Nat) (hkm : k ≤ m) (hm : m ≤ chunks.length)
    (hserver : (serverUrlExec ((runDetector cfg (chunks.take k)).serverOut)).isSome = true)
    (happ : (cfg.isServe || appDeferTest cfg.cliArgs
      ((runDetector cfg (chunks.take m)).serverOut)) = true) :
    (runDetector cfg chunks).appReady = true ∧
    (∃ j, 1 ≤ j ∧ j ≤ chunks.length ∧
      SEvent.resolveEv (capturedUrls ((runDetector cfg (chunks.take j)).serverOut))
        ∈ (runDetector cfg chunks).events) ∧
    (∀ chunks' : List String, (runDetector cfg chunks').appReady = true →
      (runDetector cfg chunks').serverReady = true) := by
  have hdec2 := runDetector_take_of_le cfg chunks k m hkm
  obtain ⟨r, hr⟩ := foldl_handler_serverOut cfg ((chunks.take m).drop k)
    (runDetector cfg (chunks.take k))
  have hserver_m : (serverUrlExec
      ((runDetector cfg (chunks.take m)).serverOut)).isSome = true := by
    rw [hdec2, hr]
    exact serverUrlExec_append _ r hserver
  have hm_app : (runDetector cfg (chunks.take m)).appReady = true := by
    cases m with
    | zero =>
      exfalso
      have hk0 : k = 0 := Nat.le_zero.mp hkm
      rw [hk0] at hserver
      have h0 : (serverUrlExec ((runDetector cfg (chunks.take 0)).serverOut)).isSome
          = false := rfl
      rw [h0] at hserver
      cases hserver
    | succ n =>
      have hn : n < chunks.length := Nat.lt_of_lt_of_le (Nat.lt_succ_self n) hm
      have hdec := runDetector_take_succ cfg chunks n hn
      have hout : (runDetector cfg (chunks.take n)).serverOut ++ chunks[n]
          = (runDetector cfg (chunks.take (n + 1))).serverOut := by
        rw [hdec, serverOutputHandler_serverOut]
      rw [hdec]
      apply serverOutputHandler_appReady_step
      · rw [hout]
        exact hserver_m
      · rw [hout]
        exact happ
  have hfinal_app : (runDetector cfg chunks).appReady = true := by
    rw [runDetector_drop cfg chunks m]
    exact foldl_handler_appReady cfg _ _ hm_app
  refine ⟨hfinal_app, ?_,
    fun chunks' h => ((runDetector_timer_invariant cfg chunks').2.2 h).2.1⟩
  have hexists : ∀ n, (runDetector cfg (chunks.take n)).appReady = true →
      n ≤ chunks.length →
      ∃ j, 1 ≤ j ∧ j ≤ n ∧
        SEvent.resolveEv (capturedUrls ((runDetector cfg (chunks.take j)).serverOut))
          ∈ (runDetector cfg (chunks.take n)).events := by
    intro n
    induction n with
    | zero =>
      intro h _
      have h0 : (runDetector cfg (chunks.take 0)).appReady = false := rfl
      rw [h0] at h
      cases h
    | succ n ih =>
      intro h hn1
      have hn : n < chunks.length := Nat.lt_of_lt_of_le (Nat.lt_succ_self n) hn1
      have hdec := runDetector_take_succ cfg chunks n hn
      by_cases hprev : (runDetector cfg (chunks.take n)).appReady = true
      · obtain ⟨j, hj1, hj2, hjmem⟩ := ih hprev (Nat.le_of_lt hn)
        exact ⟨j, hj1, Nat.le_succ_of_le hj2, by
          rw [hdec]
          exact serverOutputHandler_event_mem cfg _ _ _ hjmem⟩
      · have hprev' : (runDetector cfg (chunks.take n)).appReady = false := by
          simpa using hprev
        refine ⟨n + 1, Nat.succ_le_succ (Nat.zero_le n), Nat.le_refl _, ?_⟩
        rw [hdec] at h
        have hev := serverOutputHandler_appReady_event cfg _ chunks[n] hprev' h
        have hout : (runDetector cfg (chunks.take (n + 1))).serverOut
            = (runDetector cfg (chunks.take n)).serverOut ++ chunks[n] := by
          rw [hdec, serverOutputHandler_serverOut]
        rw [hout, hdec]
        exact hev
  obtain ⟨j, hj1, hj2, hjmem⟩ := hexists chunks.length
    (by rw [List.take_length]; exact hfinal_app) (Nat.le_refl _)
  rw [List.take_length] at hjmem
  exact ⟨j, hj1, hj2, hjmem⟩

/-- Witness for C1: a concrete two-chunk stream (server-ready URL line, then
a `launch success` line) reaches `AppReady`, produces a resolve call with
the captured URLs, and satisfies the ordering invariant. -/
theorem c1_witness :
    (runDetector ⟨["run", "android"], false, 60000, 120000⟩
      ["dev server running: http://localhost:8100\n", "launch success\n"]).appReady = true ∧
    (∃ j, 1 ≤ j ∧ j ≤ (["dev server running: http://localhost:8100\n",
        "launch success\n"] : List String).length ∧
      SEvent.resolveEv (capturedUrls
          ((runDetector ⟨["run", "android"], false, 60000, 120000⟩
            ((["dev server running: http://localhost:8100\n",
               "launch success\n"] : List String).take j)).serverOut))
        ∈ (runDetector ⟨["run", "android"], false, 60000, 120000⟩
            ["dev server running: http://localhost:8100\n", "launch success\n"]).events) ∧
    (∀ chunks' : List String,
      (runDetector ⟨["run", "android"], false, 60000, 120000⟩ chunks').appReady = true →
      (runDetector ⟨["run", "android"], false, 60000, 120000⟩ chunks').serverReady = true) :=
  c1_detector_ordering_and_resolution ⟨["run", "android"], false, 60000, 120000⟩
    ["dev server running: http://localhost:8100\n", "launch success\n"] 1 2
    (by decide) (by decide) (by decide) (by decide)
